import Mathlib

/-!
Verification of the certificate-extraction core of `src/usual/tls/tls_cert.c`
(libusual).  The C code is shallowly embedded: bytes are `Nat`, C strings are
`List Char` or `List Nat`, machine integers are `Int`/`Nat`, and the OpenSSL /
libc primitives the code calls (ASN1_INTEGER_get, BN_bn2dec, strsep,
ASN1_TIME_print output shape, X509_digest, strcasecmp) are modelled by pure
functions following their documented semantics.  Allocation behaviour is made
explicit: every function additionally reports how many heap allocations it
performed and how many it released, so that the cleanup discipline of
`tls_get_peer_cert` / `tls_cert_free` can be stated and proved.
-/

namespace TlsCert

/-- Raw byte strings (C `unsigned char *` with an explicit length). -/
abbrev Bytes := List Nat

/-- Error taxonomy of the spec (section 7); each constructor corresponds to a
`tls_set_error` site in `tls_cert.c`. -/
inductive TlsErr where
  | NotConnected            -- "not connected"
  | NoPeerCertificate       -- "peer does not have cert"
  | InvalidVersion          -- "invalid version"
  | MissingIdentity         -- "cert does not have subject" / "... issuer"
  | CorruptValue            -- "corrupt cert - NUL bytes is value"
  | InvalidAltName          -- "invalid string value" / "single space as name" /
                            -- "invalid length for ipaddress" / "negative length ..."
  | InvalidTime             -- "invalid time format ..."
  | SerialDecodeFailed      -- "cannot parse serial"
  | UnsupportedAlgorithm    -- "invalid fingerprint algorithm"
deriving DecidableEq, Repr

/-! ## Serial number decoding (`tls_parse_bigint`, lines 31-57) -/

/-- Fuel-driven decimal digit printer; models the digit loop of `snprintf`
with format `%lu` (and of `BN_bn2dec`'s digit production): emits the decimal
digits of `n`, most significant first.  The fuel argument only guarantees
termination; `fuel = n + 1` always suffices. -/
def uluCore : Nat → Nat → List Char → List Char
  | 0, _, acc => acc
  | fuel+1, n, acc =>
    let acc' := Char.ofNat (48 + n % 10) :: acc
    if n < 10 then acc' else uluCore fuel (n / 10) acc'

/-- Decimal rendering of a natural number, as a character list. -/
def natDecimal (n : Nat) : List Char := uluCore (n + 1) n []

/-- Model of `snprintf(buf, sizeof buf, "%lu", small)` for a non-negative
`small` (the value always fits in the 64-byte buffer of the C code). -/
def sprintf_lu (n : Nat) : String := ⟨natDecimal n⟩

/-- Modelled from the spec: `BN_bn2dec` (OpenSSL, outside this repository)
renders a big number in decimal, prefixing a minus sign when it is
negative. -/
def BN_bn2dec (v : Int) : String :=
  ⟨(if v < 0 then ['-'] else []) ++ natDecimal v.natAbs⟩

/-- `LONG_MAX` for the 64-bit `long` of the reference platform. -/
def LONG_MAX : Int := 9223372036854775807

/-- Modelled from the spec: `ASN1_INTEGER_get` (OpenSSL, outside this
repository) returns the value when it fits in a `long`, and `-1` when it
does not. -/
def ASN1_INTEGER_get (v : Int) : Int :=
  if -LONG_MAX ≤ v ∧ v ≤ LONG_MAX then v else -1

/-- `tls_parse_bigint` (tls_cert.c lines 31-57): the ASN1 integer is modelled
by its mathematical value `v`.  When `ASN1_INTEGER_get` yields a negative
`long` (either the genuine negative value or the `-1` does-not-fit marker)
the code goes through `ASN1_INTEGER_to_BN` / `BN_bn2dec`; otherwise it
formats the non-negative `long` with `%lu`.  Allocation failures are not
modelled, so the `SerialDecodeFailed` branch is unreachable here. -/
def tls_parse_bigint (v : Int) : Except TlsErr String :=
  let small := ASN1_INTEGER_get v
  if small < 0 then
    .ok (BN_bn2dec v)
  else
    .ok (sprintf_lu small.toNat)

/-- Big-endian interpretation of the content octets of a positive
ASN1 INTEGER. -/
def bytesBE (bs : Bytes) : Nat := bs.foldl (fun acc b => acc * 256 + b) 0

/-! ## Time decoding (`tls_parse_time`, lines 60-125) -/

/-- Modelled from the spec: `strsep(&tmp, " ")` (libc, outside this
repository) on a non-NULL string: splits off the part before the first
space.  The second component models the updated `tmp` pointer, `none`
standing for `NULL` (no delimiter was found, the whole string was the
token). -/
def strsepSpace : List Char → List Char × Option (List Char)
  | [] => ([], none)
  | c :: rest =>
    if c = ' ' then ([], some rest)
    else
      let r := strsepSpace rest
      (c :: r.1, r.2)

/-- `strsep` applied through a possibly-NULL pointer: on `NULL` it returns
`NULL` and leaves the pointer `NULL`. -/
def strsepOpt : Option (List Char) → Option (List Char) × Option (List Char)
  | none => (none, none)
  | some s => (some (strsepSpace s).1, (strsepSpace s).2)

/-- The `months` table of `tls_parse_time`. -/
def monthsCharLists : List (List Char) :=
  ["Jan", "Feb", "Mar", "Apr", "May", "Jun",
   "Jul", "Aug", "Sep", "Oct", "Nov", "Dec"].map String.data

/-- The month-lookup loop: index of the first table entry whose four bytes
(`"Mon"` plus NUL terminator) equal the token; `12` when none matches
(the C leaves `i = 12` and the `i > 11` test rejects). -/
def monthIdx (mon : List Char) : Nat :=
  monthsCharLists.findIdx (fun m => m == mon)

/-- `%02d` for the month number (1-12): zero-padded to two digits. -/
def fmt02d (n : Nat) : List Char :=
  if n < 10 then '0' :: natDecimal n else natDecimal n

/-- The `tz && strcmp(tz, "GMT") != 0` test. -/
def tzReject : Option (List Char) → Bool
  | none => false
  | some t => !(t == ("GMT" : String).data)

/-- `tls_parse_time` (tls_cert.c lines 60-125).  The ASN1 time is modelled by
the string `ASN1_TIME_print` renders it to ("Mon DD HH:MM:SS YYYY GMT");
`BIO_read` reads at most 127 bytes of it into a zeroed buffer, hence the
`take 127`.  A `"Mon  D"` day (bytes 3 and 4 both spaces) is normalised by
overwriting byte 4 with `'0'`; then the buffer is split on single spaces by
five `strsep` calls; fewer than four tokens or more than five is an error,
a fifth token other than `"GMT"` is an error, an unknown month is an error;
otherwise `asprintf("%s-%02d-%sT%sZ", year, i+1, day, time)`. -/
def tls_parse_time (s : String) : Except TlsErr String :=
  let buf0 := s.data.take 127
  let buf := if buf0.getD 3 (Char.ofNat 0) = ' ' ∧ buf0.getD 4 (Char.ofNat 0) = ' '
             then buf0.set 4 '0' else buf0
  let r1 := strsepSpace buf
  let r2 := strsepOpt r1.2
  let r3 := strsepOpt r2.2
  let r4 := strsepOpt r3.2
  let r5 := strsepOpt r4.2
  if r4.1 = none ∨ r5.2 ≠ none then .error .InvalidTime
  else if tzReject r5.1 then .error .InvalidTime
  else
    let i := monthIdx r1.1
    if i > 11 then .error .InvalidTime
    else .ok ⟨(r4.1.getD []) ++ '-' :: fmt02d (i + 1) ++
              '-' :: (r2.1.getD []) ++ 'T' :: (r3.1.getD []) ++ ['Z']⟩

/-! ## Distinguished-name attributes (`tls_cert_get_name_string`, lines
127-156, and `tls_get_entity`, lines 293-311) -/

/-- An X509_NAME, modelled as the values of the seven attributes the code
looks up (`X509_NAME_get_text_by_NID`): `none` when the NID is absent from
the name, `some bytes` when present. -/
structure X509Name where
  commonName : Option Bytes
  countryName : Option Bytes
  stateOrProvinceName : Option Bytes
  localityName : Option Bytes
  streetAddress : Option Bytes
  organizationName : Option Bytes
  organizationalUnitName : Option Bytes
deriving DecidableEq, Repr

/-- The seven attribute values in the order `tls_get_entity` fetches them. -/
def x509NameAttrs (n : X509Name) : List (Option Bytes) :=
  [n.commonName, n.countryName, n.stateOrProvinceName, n.localityName,
   n.streetAddress, n.organizationName, n.organizationalUnitName]

/-- Number of non-NULL pointers in a list of optional strings. -/
def someCount (l : List (Option Bytes)) : Nat := l.countP (·.isSome)

/-- Result of `tls_cert_get_name_string`: C return code, the produced string
(`*str_p`), the error set (if any), and gross allocation / release counts. -/
structure NameStrRes where
  ret : Int
  str : Option Bytes
  err : Option TlsErr
  alloc : Nat
  freed : Nat
deriving DecidableEq, Repr

/-- `tls_cert_get_name_string` (lines 127-156): absent attribute → success
with `*str_p = NULL`; present attribute whose text contains a NUL byte →
the copied buffer is freed again and `-2` / "corrupt cert" is returned;
otherwise the text is returned verbatim in a fresh allocation. -/
def tls_cert_get_name_string (attr : Option Bytes) : NameStrRes :=
  match attr with
  | none => ⟨0, none, none, 0, 0⟩
  | some bs =>
    if 0 ∈ bs then ⟨-2, none, some .CorruptValue, 1, 1⟩
    else ⟨0, some bs, none, 1, 0⟩

/-- Result of a chain of `tls_cert_get_name_string` calls short-circuited by
`if (ret == 0)`, as in `tls_get_entity`. -/
structure NameChainRes where
  ret : Int
  strs : List (Option Bytes)
  err : Option TlsErr
  alloc : Nat
  freed : Nat
deriving DecidableEq, Repr

/-- The `ret == 0` chain of `tls_get_entity`: fields after the first failure
keep their `calloc` value `NULL` (`none`). -/
def nameChain : List (Option Bytes) → NameChainRes
  | [] => ⟨0, [], none, 0, 0⟩
  | v :: vs =>
    let r := tls_cert_get_name_string v
    if r.ret = 0 then
      let t := nameChain vs
      ⟨t.ret, r.str :: t.strs, t.err, r.alloc + t.alloc, r.freed + t.freed⟩
    else
      ⟨r.ret, r.str :: vs.map (fun _ => none), r.err, r.alloc, r.freed⟩

/-- `struct tls_cert_entity`: the seven owned strings. -/
structure TlsCertEntity where
  common_name : Option Bytes
  country_name : Option Bytes
  state_or_province_name : Option Bytes
  locality_name : Option Bytes
  street_address : Option Bytes
  organization_name : Option Bytes
  organizational_unit_name : Option Bytes
deriving DecidableEq, Repr

/-- Build the entity from the chain results (missing entries stay NULL). -/
def mkEntity (l : List (Option Bytes)) : TlsCertEntity :=
  ⟨l.getD 0 none, l.getD 1 none, l.getD 2 none, l.getD 3 none,
   l.getD 4 none, l.getD 5 none, l.getD 6 none⟩

/-- Result of `tls_get_entity`. -/
structure EntityRes where
  ret : Int
  ent : TlsCertEntity
  err : Option TlsErr
  alloc : Nat
  freed : Nat
deriving DecidableEq, Repr

/-- `tls_get_entity` (lines 293-311): the seven lookups in source order,
short-circuiting on the first non-zero return code. -/
def tls_get_entity (name : X509Name) : EntityRes :=
  let c := nameChain (x509NameAttrs name)
  ⟨c.ret, mkEntity c.strs, c.err, c.alloc, c.freed⟩

/-! ## Subject alternative names (lines 158-291) -/

/-- `TLS_CERT_NAME_*` alt-name kinds. -/
inductive AltNameType where
  | DNS | EMAIL | URI | IPv4 | IPv6
deriving DecidableEq, Repr

/-- `struct tls_cert_alt_name`: the owned value bytes and the kind tag. -/
structure TlsCertAltName where
  alt_name : Bytes
  alt_name_type : AltNameType
deriving DecidableEq, Repr

/-- `V_ASN1_IA5STRING`. -/
def V_ASN1_IA5STRING : Nat := 22

/-- An ASN1 string: its `ASN1_STRING_type` tag and its raw bytes. -/
structure ASN1String where
  format : Nat
  data : Bytes
deriving DecidableEq, Repr

/-- A `GENERAL_NAME` from the subjectAltName stack: the four kinds the code
handles, plus `other` for every remaining `GEN_*` type (directory name,
other name, registered ID, ...). -/
inductive GeneralName where
  | dns (s : ASN1String)
  | email (s : ASN1String)
  | uri (s : ASN1String)
  | ipaddr (bin : Bytes)
  | other
deriving DecidableEq, Repr

/-- `struct tls_cert_info`.  `subject_alt_names = none` models a NULL array
pointer; `some l` an allocated array holding the successfully appended
entries.  `subject_alt_name_count` is the separately maintained count
field. -/
structure TlsCertInfo where
  subject : TlsCertEntity
  issuer : TlsCertEntity
  version : Int
  serial : Option String
  not_before : Option String
  not_after : Option String
  subject_alt_names : Option (List TlsCertAltName)
  subject_alt_name_count : Nat
deriving DecidableEq, Repr

/-- The all-NULL entity produced by `calloc`. -/
def emptyEntity : TlsCertEntity := ⟨none, none, none, none, none, none, none⟩

/-- The `calloc`-ed `struct tls_cert_info`, after `cert->version` is set. -/
def emptyCert (version : Int) : TlsCertInfo :=
  ⟨emptyEntity, emptyEntity, version, none, none, none, none, 0⟩

/-- Result of one alt-name processing step: C return code, updated cert,
error set, allocation / release counts. -/
structure StepRes where
  ret : Int
  cert : TlsCertInfo
  err : Option TlsErr
  alloc : Nat
  freed : Nat
deriving DecidableEq, Repr

/-- `tls_load_alt_ia5string` (lines 158-204): a string type other than
IA5String is ignored (success, nothing appended); an empty value or one
with an embedded NUL, or the one-character value `" "`, is rejected;
otherwise the bytes are copied verbatim into the next slot and the count
is incremented. -/
def tls_load_alt_ia5string (ia5 : ASN1String) (cert : TlsCertInfo)
    (slot_type : AltNameType) : StepRes :=
  if ia5.format ≠ V_ASN1_IA5STRING then ⟨0, cert, none, 0, 0⟩
  else
    let data := ia5.data
    if data.length = 0 ∨ 0 ∈ data then ⟨-1, cert, some .InvalidAltName, 0, 0⟩
    else if data.length = 1 ∧ data.getD 0 0 = 32 then
      ⟨-1, cert, some .InvalidAltName, 0, 0⟩
    else
      ⟨0,
       { cert with
         subject_alt_names :=
           some ((cert.subject_alt_names.getD []) ++ [⟨data, slot_type⟩]),
         subject_alt_name_count := cert.subject_alt_name_count + 1 },
       none, 1, 0⟩

/-- `tls_load_alt_ipaddr` (lines 206-243): exactly 4 bytes tag IPv4, exactly
16 bytes tag IPv6, anything else is rejected; on success the raw bytes are
copied unchanged and the count incremented. -/
def tls_load_alt_ipaddr (bin : Bytes) (cert : TlsCertInfo) : StepRes :=
  if bin.length = 4 ∨ bin.length = 16 then
    ⟨0,
     { cert with
       subject_alt_names :=
         some ((cert.subject_alt_names.getD []) ++
               [⟨bin, if bin.length = 4 then .IPv4 else .IPv6⟩]),
       subject_alt_name_count := cert.subject_alt_name_count + 1 },
     none, 1, 0⟩
  else ⟨-1, cert, some .InvalidAltName, 0, 0⟩

/-- The `for` loop of `tls_cert_get_altnames` (lines 270-287), with the `rv`
variable threaded through exactly as in the source: a recognised entry
sets `rv` from its loader, an unrecognised entry leaves `rv` untouched,
and `if (rv < 0) goto out` runs after every iteration; falling off the end
of the loop sets `rv = 0`. -/
def altLoop : List GeneralName → Int → TlsCertInfo → StepRes
  | [], _, cert => ⟨0, cert, none, 0, 0⟩
  | n :: rest, rv, cert =>
    let s : StepRes :=
      match n with
      | .dns ia5 => tls_load_alt_ia5string ia5 cert .DNS
      | .email ia5 => tls_load_alt_ia5string ia5 cert .EMAIL
      | .uri ia5 => tls_load_alt_ia5string ia5 cert .URI
      | .ipaddr bin => tls_load_alt_ipaddr bin cert
      | .other => ⟨rv, cert, none, 0, 0⟩
    if s.ret < 0 then s
    else
      let t := altLoop rest s.ret s.cert
      ⟨t.ret, t.cert, t.err, s.alloc + t.alloc, s.freed + t.freed⟩

/-- `tls_cert_get_altnames` (lines 246-291).  `ext = none` models
`X509_get_ext_d2i` returning NULL (no extension — success with nothing to
do); an empty stack is also success with no allocation; otherwise the slot
array is `calloc`-ed (one allocation) and the loop runs with `rv`
initialised to `-1`. -/
def tls_cert_get_altnames (ext : Option (List GeneralName))
    (cert : TlsCertInfo) : StepRes :=
  match ext with
  | none => ⟨0, cert, none, 0, 0⟩
  | some names =>
    if names.length = 0 then ⟨0, cert, none, 0, 0⟩
    else
      let cert1 := { cert with subject_alt_names := some [] }
      let r := altLoop names (-1) cert1
      ⟨r.ret, r.cert, r.err, 1 + r.alloc, r.freed⟩

/-- A subjectAltName entry of a supported kind whose value the loaders
accept: an IA5-typed DNS/Email/URI string that is non-empty, NUL-free and
not the single space, or an IP address of 4 or 16 bytes. -/
def altEntryOk : GeneralName → Bool
  | .dns s | .email s | .uri s =>
      s.format = V_ASN1_IA5STRING ∧ s.data ≠ [] ∧ 0 ∉ s.data ∧ s.data ≠ [32]
  | .ipaddr bin => bin.length = 4 ∨ bin.length = 16
  | .other => false

/-- The `tls_cert_alt_name` entry a supported, valid GeneralName is stored
as (meaningless for `other`, which is never stored). -/
def altEntryVal : GeneralName → TlsCertAltName
  | .dns s => ⟨s.data, .DNS⟩
  | .email s => ⟨s.data, .EMAIL⟩
  | .uri s => ⟨s.data, .URI⟩
  | .ipaddr bin => ⟨bin, if bin.length = 4 then .IPv4 else .IPv6⟩
  | .other => ⟨[], .DNS⟩

/-! ## Release (`tls_cert_free_entity` / `tls_cert_free`, lines 381-413) -/

/-- The seven owned strings of an entity, in declaration order. -/
def entityAttrs (e : TlsCertEntity) : List (Option Bytes) :=
  [e.common_name, e.country_name, e.state_or_province_name, e.locality_name,
   e.street_address, e.organization_name, e.organizational_unit_name]

/-- `tls_cert_free_entity` (lines 381-391), counted as the number of `free`
calls on non-NULL pointers. -/
def entityFrees (e : TlsCertEntity) : Nat := someCount (entityAttrs e)

/-- `tls_cert_free` (lines 393-413) on a non-NULL cert, counted as the number
of heap blocks it releases: both entities' strings, one string per counted
alt name, the alt-name array when allocated, the three strings, and the
cert structure itself. -/
def tls_cert_free (cert : TlsCertInfo) : Nat :=
  entityFrees cert.issuer + entityFrees cert.subject +
  cert.subject_alt_name_count +
  (if cert.subject_alt_names.isSome then 1 else 0) +
  (if cert.serial.isSome then 1 else 0) +
  (if cert.not_before.isSome then 1 else 0) +
  (if cert.not_after.isSome then 1 else 0) + 1

/-- The heap blocks a (partial) cert currently owns, not counting the cert
structure itself.  `tls_cert_free cert = liveCount cert + 1`. -/
def liveCount (cert : TlsCertInfo) : Nat :=
  entityFrees cert.issuer + entityFrees cert.subject +
  cert.subject_alt_name_count +
  (if cert.subject_alt_names.isSome then 1 else 0) +
  (if cert.serial.isSome then 1 else 0) +
  (if cert.not_before.isSome then 1 else 0) +
  (if cert.not_after.isSome then 1 else 0)

/-! ## Session model and `tls_get_peer_cert` (lines 313-379) -/

/-- The peer X509 certificate, as seen through the queries the code makes:
version, the two names (NULL-able), the subjectAltName extension, the two
validity times (as their `ASN1_TIME_print` rendering), and the serial
(as its integer value). -/
structure X509 where
  version : Int
  subject_name : Option X509Name
  issuer_name : Option X509Name
  subject_alt_name_ext : Option (List GeneralName)
  notBefore : String
  notAfter : String
  serialNumber : Int

/-- An established SSL connection: `SSL_get_peer_certificate` may return
NULL. -/
structure SSLConn where
  peer_cert : Option X509

/-- `struct tls`: the context, whose `ssl_conn` may be NULL. -/
structure TlsState where
  ssl_conn : Option SSLConn

/-- Result of `tls_get_peer_cert`: C return code, `*cert_p`, the error set,
and gross allocation / release counts over the whole call (including the
`tls_cert_free` cleanup on the failure path). -/
structure CertRes where
  ret : Int
  cert_out : Option TlsCertInfo
  err : Option TlsErr
  alloc : Nat
  freed : Nat

/-- The notBefore → notAfter → serial tail of the `tls_get_peer_cert` decode
chain (lines 366-371), applied to the cert as it stands after the alt
names were loaded; allocation and release counts are relative to this
tail (the caller adds its own), and any failure runs `tls_cert_free` on
the partial cert. -/
def afterAltnames (peer : X509) (cert : TlsCertInfo) : CertRes :=
  match tls_parse_time peer.notBefore with
  | .error e => ⟨-1, none, some e, 0, tls_cert_free cert⟩
  | .ok nb =>
    let c4 := { cert with not_before := some nb }
    match tls_parse_time peer.notAfter with
    | .error e => ⟨-1, none, some e, 1, tls_cert_free c4⟩
    | .ok na =>
      let c5 := { c4 with not_after := some na }
      match tls_parse_bigint peer.serialNumber with
      | .error e => ⟨-1, none, some e, 2, tls_cert_free c5⟩
      | .ok ser => ⟨0, some { c5 with serial := some ser }, none, 3, 0⟩

/-- The alt-name step of the `tls_get_peer_cert` decode chain (line 365)
followed by the tail; counts are relative, failure frees the partial
cert. -/
def afterEntities (peer : X509) (cert : TlsCertInfo) : CertRes :=
  let a := tls_cert_get_altnames peer.subject_alt_name_ext cert
  if a.ret ≠ 0 then
    ⟨a.ret, none, a.err, a.alloc, a.freed + tls_cert_free a.cert⟩
  else
    let r := afterAltnames peer a.cert
    ⟨r.ret, r.cert_out, r.err, a.alloc + r.alloc, a.freed + r.freed⟩

/-- The part of `tls_get_peer_cert` after the guard checks (lines 354-378):
`calloc` of the cert (one allocation), the subject and issuer entities,
then the rest of the chain; each failure point frees everything built so
far and leaves `*cert_p` NULL. -/
def tls_get_peer_cert_body (peer : X509) (subject issuer : X509Name) : CertRes :=
  let e1 := tls_get_entity subject
  let c1 := { emptyCert peer.version with subject := e1.ent }
  if e1.ret ≠ 0 then
    ⟨e1.ret, none, e1.err, 1 + e1.alloc, e1.freed + tls_cert_free c1⟩
  else
    let e2 := tls_get_entity issuer
    let c2 := { c1 with issuer := e2.ent }
    if e2.ret ≠ 0 then
      ⟨e2.ret, none, e2.err, 1 + e1.alloc + e2.alloc,
       e1.freed + e2.freed + tls_cert_free c2⟩
    else
      let r := afterEntities peer c2
      ⟨r.ret, r.cert_out, r.err, 1 + e1.alloc + e2.alloc + r.alloc,
       e1.freed + e2.freed + r.freed⟩

/-- `tls_get_peer_cert` (lines 313-379): the connection, peer-certificate,
version, subject and issuer guard checks, then the decode chain. -/
def tls_get_peer_cert (ctx : TlsState) : CertRes :=
  match ctx.ssl_conn with
  | none => ⟨-1, none, some .NotConnected, 0, 0⟩
  | some conn =>
  match conn.peer_cert with
  | none => ⟨-1, none, some .NoPeerCertificate, 0, 0⟩
  | some peer =>
  if peer.version < 0 then ⟨-1, none, some .InvalidVersion, 0, 0⟩ else
  match peer.subject_name with
  | none => ⟨-1, none, some .MissingIdentity, 0, 0⟩
  | some subject =>
  match peer.issuer_name with
  | none => ⟨-1, none, some .MissingIdentity, 0, 0⟩
  | some issuer => tls_get_peer_cert_body peer subject issuer

/-! ## Fingerprint (`tls_get_peer_cert_fingerprint`, lines 419-467) -/

/-- The two digests the code dispatches to. -/
inductive EvpMd where
  | sha1 | sha256
deriving DecidableEq, Repr

/-- Digest output sizes (`EVP_MD_size`). -/
def mdSize : EvpMd → Nat
  | .sha1 => 20
  | .sha256 => 32

/-- Modelled from the spec: `X509_digest` (OpenSSL, outside this repository)
computes a digest of the certificate's canonical encoded bytes whose
length is the algorithm's output size (20 bytes for SHA-1, 32 for
SHA-256).  Only the length is specified, so the bytes themselves are left
unmodelled (all zero). -/
def X509_digest (md : EvpMd) : Bytes := List.replicate (mdSize md) 0

/-- Modelled from the spec: `strcasecmp(a, b) == 0` (libc, outside this
repository) — case-insensitive equality. -/
def strcaseEq (a b : String) : Bool :=
  a.data.map Char.toLower == b.data.map Char.toLower

/-- Result of `tls_get_peer_cert_fingerprint`: C return code, the bytes
written to the caller's buffer, `*outlen`, and the error set. -/
structure FpRes where
  ret : Int
  fp : Bytes
  outlen : Nat
  err : Option TlsErr
deriving DecidableEq, Repr

/-- `tls_get_peer_cert_fingerprint` (lines 419-467): `*outlen` is zeroed
first; connection and peer-certificate guards; the algorithm name is
matched case-insensitively against "sha1" and "sha256" and anything else
is rejected; the digest is truncated to the caller's buffer size. -/
def tls_get_peer_cert_fingerprint (ctx : TlsState) (algo : String)
    (buflen : Nat) : FpRes :=
  match ctx.ssl_conn with
  | none => ⟨-1, [], 0, some .NotConnected⟩
  | some conn =>
  match conn.peer_cert with
  | none => ⟨-1, [], 0, some .NoPeerCertificate⟩
  | some _ =>
  if strcaseEq algo "sha1" ∨ strcaseEq algo "sha256" then
    let md : EvpMd := if strcaseEq algo "sha1" then .sha1 else .sha256
    let tmp := X509_digest md
    let tmplen := if tmp.length > buflen then buflen else tmp.length
    ⟨0, tmp.take tmplen, tmplen, none⟩
  else ⟨-1, [], 0, some .UnsupportedAlgorithm⟩

/-! Digit-only facts about the decimal printer. -/

theorem uluCore_digits (fuel : Nat) : ∀ (n : Nat) (acc : List Char),
    (∀ c ∈ acc, c.isDigit) → ∀ c ∈ uluCore fuel n acc, c.isDigit := by
  induction fuel with
  | zero => intro n acc hacc c hc; exact hacc c hc
  | succ fuel ih =>
    intro n acc hacc c hc
    have hd : (Char.ofNat (48 + n % 10)).isDigit := by
      have h10 : n % 10 < 10 := Nat.mod_lt _ (by norm_num)
      set k := n % 10 with hk
      interval_cases k <;> decide
    simp only [uluCore] at hc
    split at hc
    · rcases List.mem_cons.mp hc with hc | hc
      · exact hc ▸ hd
      · exact hacc c hc
    · refine ih (n / 10) _ ?_ c hc
      intro x hx
      rcases List.mem_cons.mp hx with hx | hx
      · exact hx ▸ hd
      · exact hacc x hx

theorem natDecimal_digits (n : Nat) : ∀ c ∈ natDecimal n, c.isDigit :=
  uluCore_digits (n + 1) n [] (by intro c hc; cases hc)

theorem uluCore_suffix (fuel : Nat) : ∀ (n : Nat) (acc : List Char),
    ∃ l, uluCore fuel n acc = l ++ acc := by
  induction fuel with
  | zero => intro n acc; exact ⟨[], rfl⟩
  | succ fuel ih =>
    intro n acc
    simp only [uluCore]
    split
    · exact ⟨[Char.ofNat (48 + n % 10)], rfl⟩
    · obtain ⟨l, hl⟩ := ih (n / 10) (Char.ofNat (48 + n % 10) :: acc)
      exact ⟨l ++ [Char.ofNat (48 + n % 10)], by simp [hl]⟩

theorem natDecimal_ne_nil (n : Nat) : natDecimal n ≠ [] := by
  unfold natDecimal uluCore
  split
  · simp
  · obtain ⟨l, hl⟩ := uluCore_suffix n (n / 10) [Char.ofNat (48 + n % 10)]
    simp [hl]


/-! ## Alt-name entry lemmas and claims C1, C5, C6 -/

theorem list_singleton_32 (l : Bytes) :
    (l.length = 1 ∧ l.getD 0 0 = 32) ↔ l = [32] := by
  rcases l with _ | ⟨b, _ | ⟨c, rest⟩⟩ <;> simp [List.getD]

/-- C5: for an IA5String-typed subjectAltName value, loading fails exactly
when the value is empty, contains an embedded NUL byte, or is the single
space; the failure is InvalidAltName and leaves the cert untouched, and on
success the bytes are appended verbatim with the requested tag and the
count is incremented. -/
theorem c5_ia5_altname_cases (ia5 : ASN1String) (cert : TlsCertInfo)
    (ty : AltNameType) (hfmt : ia5.format = V_ASN1_IA5STRING) :
    ((tls_load_alt_ia5string ia5 cert ty).ret < 0 ↔
      (ia5.data = [] ∨ 0 ∈ ia5.data ∨ ia5.data = [32]))
    ∧ ((tls_load_alt_ia5string ia5 cert ty).ret < 0 →
       (tls_load_alt_ia5string ia5 cert ty).err = some .InvalidAltName ∧
       (tls_load_alt_ia5string ia5 cert ty).cert = cert)
    ∧ (¬ (tls_load_alt_ia5string ia5 cert ty).ret < 0 →
       (tls_load_alt_ia5string ia5 cert ty).cert.subject_alt_names =
         some ((cert.subject_alt_names.getD []) ++ [⟨ia5.data, ty⟩]) ∧
       (tls_load_alt_ia5string ia5 cert ty).cert.subject_alt_name_count =
         cert.subject_alt_name_count + 1 ∧
       (tls_load_alt_ia5string ia5 cert ty).err = none) := by
  unfold tls_load_alt_ia5string
  rw [if_neg (by simp [hfmt])]
  by_cases h1 : ia5.data.length = 0 ∨ 0 ∈ ia5.data
  · rw [if_pos h1]
    refine ⟨?_, fun _ => ⟨rfl, rfl⟩, fun h => absurd (by norm_num) h⟩
    simp only [List.length_eq_zero] at h1
    constructor
    · intro _
      rcases h1 with h1 | h1
      · exact Or.inl h1
      · exact Or.inr (Or.inl h1)
    · intro _; norm_num
  · rw [if_neg h1]
    by_cases h2 : ia5.data.length = 1 ∧ ia5.data.getD 0 0 = 32
    · rw [if_pos h2]
      refine ⟨?_, fun _ => ⟨rfl, rfl⟩, fun h => absurd (by norm_num) h⟩
      constructor
      · intro _
        exact Or.inr (Or.inr ((list_singleton_32 ia5.data).mp h2))
      · intro _; norm_num
    · rw [if_neg h2]
      refine ⟨?_, fun h => ?_, fun _ => ⟨rfl, rfl, rfl⟩⟩
      case neg.refine_2 => norm_num at h
      constructor
      · intro h; norm_num at h
      · intro h
        rcases h with h | h | h
        · exact absurd (by simp [h] : ia5.data.length = 0) (fun hh => h1 (Or.inl hh))
        · exact absurd h (fun hh => h1 (Or.inr hh))
        · exact absurd ((list_singleton_32 ia5.data).mpr h) h2

/-- Witness for C5 at concrete inputs: the single-space DNS name is
rejected with InvalidAltName. -/
theorem c5_ia5_altname_cases_witness :
    (tls_load_alt_ia5string ⟨22, [32]⟩ (emptyCert 0) .DNS).ret < 0 ∧
    (tls_load_alt_ia5string ⟨22, [32]⟩ (emptyCert 0) .DNS).err =
      some .InvalidAltName := by
  have h := c5_ia5_altname_cases ⟨22, [32]⟩ (emptyCert 0) .DNS rfl
  have hfail := h.1.mpr (Or.inr (Or.inr rfl))
  exact ⟨hfail, (h.2.1 hfail).1⟩

/-- C6: an IP-address subjectAltName loads successfully exactly when it is
4 bytes (tagged IPv4) or 16 bytes (tagged IPv6); any other length is
InvalidAltName with the cert untouched, and on success the raw bytes are
stored unchanged. -/
theorem c6_ipaddr_altname_cases (bin : Bytes) (cert : TlsCertInfo) :
    ((tls_load_alt_ipaddr bin cert).ret = 0 ↔
      (bin.length = 4 ∨ bin.length = 16))
    ∧ (bin.length = 4 →
       (tls_load_alt_ipaddr bin cert).cert.subject_alt_names =
         some ((cert.subject_alt_names.getD []) ++ [⟨bin, .IPv4⟩]))
    ∧ (bin.length = 16 →
       (tls_load_alt_ipaddr bin cert).cert.subject_alt_names =
         some ((cert.subject_alt_names.getD []) ++ [⟨bin, .IPv6⟩]))
    ∧ (¬ (bin.length = 4 ∨ bin.length = 16) →
       (tls_load_alt_ipaddr bin cert).err = some .InvalidAltName ∧
       (tls_load_alt_ipaddr bin cert).cert = cert) := by
  unfold tls_load_alt_ipaddr
  by_cases h : bin.length = 4 ∨ bin.length = 16
  · rw [if_pos h]
    refine ⟨by simp [h], ?_, ?_, fun hn => absurd h hn⟩
    · intro h4; simp [h4]
    · intro h16
      have h4 : ¬ bin.length = 4 := by omega
      simp [h4]
  · rw [if_neg h]
    exact ⟨by simp [h], fun h4 => absurd (Or.inl h4) h,
           fun h16 => absurd (Or.inr h16) h, fun _ => ⟨rfl, rfl⟩⟩

/-- Witness for C6 at concrete inputs: a 4-byte address is stored verbatim
as IPv4 and a 5-byte address is rejected. -/
theorem c6_ipaddr_altname_cases_witness :
    (tls_load_alt_ipaddr [10, 0, 0, 1] (emptyCert 0)).cert.subject_alt_names =
      some [⟨[10, 0, 0, 1], .IPv4⟩] ∧
    (tls_load_alt_ipaddr [1, 2, 3, 4, 5] (emptyCert 0)).err =
      some .InvalidAltName := by
  have h4 := (c6_ipaddr_altname_cases [10, 0, 0, 1] (emptyCert 0)).2.1 rfl
  have h5 := ((c6_ipaddr_altname_cases [1, 2, 3, 4, 5] (emptyCert 0)).2.2.2
    (by decide)).1
  exact ⟨by simpa [emptyCert] using h4, h5⟩

/-- C1 (code bug): an unrecognised GeneralName kind is skipped only when it
is not the first entry.  With a recognised entry first, the unknown entry
is skipped silently and processing continues; but when the unknown entry
is first, the loop's `rv` still holds its `-1` initialisation, so
extraction of the alt names fails (return -1) without any error message
being set — contradicting the source's own "ignore unknown types"
comment. -/
theorem c1_first_unknown_altname_fails :
    ((tls_cert_get_altnames (some [.dns ⟨22, [97]⟩, .other, .ipaddr [1, 2, 3, 4]])
        (emptyCert 0)).ret = 0 ∧
     (tls_cert_get_altnames (some [.dns ⟨22, [97]⟩, .other, .ipaddr [1, 2, 3, 4]])
        (emptyCert 0)).cert.subject_alt_names =
       some [⟨[97], .DNS⟩, ⟨[1, 2, 3, 4], .IPv4⟩])
    ∧ ((tls_cert_get_altnames (some [GeneralName.other]) (emptyCert 0)).ret = -1 ∧
       (tls_cert_get_altnames (some [GeneralName.other]) (emptyCert 0)).err = none ∧
       (tls_cert_get_altnames (some [GeneralName.other])
          (emptyCert 0)).cert.subject_alt_name_count = 0) := by
  refine ⟨⟨rfl, rfl⟩, rfl, rfl, rfl⟩



/-! ## Serial decoding: claim C2 -/

/-- C2 counterexample: the serial-number integer −1 decodes successfully, but
to the string "-1", which carries a sign and is not a pure decimal digit
string. -/
theorem c2_negative_serial_signed :
    tls_parse_bigint (-1) = .ok "-1" ∧
    ¬ (∀ c ∈ ("-1" : String).data, c.isDigit) := by
  refine ⟨by rfl, fun h => ?_⟩
  have := h '-' (by decide)
  exact absurd this (by decide)

/-- C2 (amended to non-negative serials): decoding a non-negative serial
takes the direct `%lu` path when the value fits a signed 64-bit long and
the big-number path otherwise, always succeeds, and yields a non-empty
string of decimal digits only; in particular the big-endian bytes
01 00 00 00 00 decode to "4294967296". -/
theorem c2_nonneg_serial_digits (v : Int) (hv : 0 ≤ v) :
    tls_parse_bigint v =
      .ok (if v ≤ LONG_MAX then sprintf_lu v.toNat else BN_bn2dec v) ∧
    (∀ s, tls_parse_bigint v = .ok s → s.data ≠ [] ∧ ∀ c ∈ s.data, c.isDigit) ∧
    tls_parse_bigint ((bytesBE [1, 0, 0, 0, 0] : Nat) : Int) =
      .ok "4294967296" := by
  have hget : ASN1_INTEGER_get v = if v ≤ LONG_MAX then v else -1 := by
    unfold ASN1_INTEGER_get
    by_cases h : v ≤ LONG_MAX
    · rw [if_pos ⟨by unfold LONG_MAX at *; omega, h⟩, if_pos h]
    · rw [if_neg (fun hh => h hh.2), if_neg h]
  by_cases h : v ≤ LONG_MAX
  · have hpath : tls_parse_bigint v = .ok (sprintf_lu v.toNat) := by
      unfold tls_parse_bigint
      rw [hget, if_pos h, if_neg (by omega)]
    refine ⟨by rw [hpath, if_pos h], ?_, by rfl⟩
    intro s hs
    rw [hpath] at hs
    injection hs with hs
    subst hs
    exact ⟨natDecimal_ne_nil _, natDecimal_digits _⟩
  · have hpath : tls_parse_bigint v = .ok (BN_bn2dec v) := by
      unfold tls_parse_bigint
      rw [hget, if_neg h, if_pos (by norm_num)]
    refine ⟨by rw [hpath, if_neg h], ?_, by rfl⟩
    intro s hs
    rw [hpath] at hs
    injection hs with hs
    subst hs
    unfold BN_bn2dec
    rw [if_neg (by omega)]
    exact ⟨by simpa using natDecimal_ne_nil _, by simpa using natDecimal_digits _⟩

/-- Witness for C2 at a concrete input: the serial 4294967296 (which fits a
64-bit long, unlike on the 32-bit platforms the BN path serves) decodes to
a non-empty pure-digit string. -/
theorem c2_nonneg_serial_digits_witness :
    tls_parse_bigint 4294967296 =
      .ok (if (4294967296 : Int) ≤ LONG_MAX then sprintf_lu (4294967296 : Int).toNat
           else BN_bn2dec 4294967296) ∧
    ("4294967296" : String).data ≠ [] ∧
    (∀ c ∈ ("4294967296" : String).data, c.isDigit) := by
  have h := c2_nonneg_serial_digits 4294967296 (by norm_num)
  exact ⟨h.1, h.2.1 "4294967296" (by rw [h.1]; rfl)⟩



/-! ## Time decoding lemmas and claims C8, C10 -/

theorem strsepSpace_no_space (t : List Char) (h : ' ' ∉ t) :
    strsepSpace t = (t, none) := by
  induction t with
  | nil => rfl
  | cons c rest ih =>
    have hc : ¬ c = ' ' := fun hh => h (hh ▸ List.mem_cons_self c rest)
    have hr : ' ' ∉ rest := fun hh => h (List.mem_cons_of_mem c hh)
    simp [strsepSpace, hc, ih hr]

theorem strsepSpace_append (t rest : List Char) (h : ' ' ∉ t) :
    strsepSpace (t ++ ' ' :: rest) = (t, some rest) := by
  induction t with
  | nil => simp [strsepSpace]
  | cons c tl ih =>
    have hc : ¬ c = ' ' := fun hh => h (hh ▸ List.mem_cons_self c tl)
    have htl : ' ' ∉ tl := fun hh => h (List.mem_cons_of_mem c hh)
    simp [strsepSpace, hc, ih htl]

theorem c8_space_padded_day (s : String) (mon : List Char) (d : Char)
    (time year : List Char)
    (hmon3 : mon.length = 3) (hmonsp : ' ' ∉ mon) (hidx : monthIdx mon ≤ 11)
    (hd : d ≠ ' ') (ht : ' ' ∉ time) (hy : ' ' ∉ year)
    (hs : s.data = mon ++ ' ' :: ' ' :: d :: ' ' ::
          (time ++ ' ' :: (year ++ ' ' :: 'G' :: 'M' :: 'T' :: [])))
    (hlen : s.data.length ≤ 127) :
    tls_parse_time s =
      .ok ⟨year ++ '-' :: fmt02d (monthIdx mon + 1) ++
           '-' :: '0' :: d :: 'T' :: time ++ ['Z']⟩ := by
  obtain ⟨a, b, c, rfl⟩ := List.length_eq_three.mp hmon3
  have ha : ¬ a = ' ' := fun hh => hmonsp (by simp [hh])
  have hb : ¬ b = ' ' := fun hh => hmonsp (by simp [hh])
  have hc : ¬ c = ' ' := fun hh => hmonsp (by simp [hh])
  have habc : ' ' ∉ [a, b, c] := by simp [ha, hb, hc, eq_comm]
  unfold tls_parse_time
  rw [List.take_of_length_le hlen, hs]
  have hbuf : (if ([a, b, c] ++ ' ' :: ' ' :: d :: ' ' ::
        (time ++ ' ' :: (year ++ ' ' :: 'G' :: 'M' :: 'T' :: []))).getD 3
        (Char.ofNat 0) = ' ' ∧
        ([a, b, c] ++ ' ' :: ' ' :: d :: ' ' ::
        (time ++ ' ' :: (year ++ ' ' :: 'G' :: 'M' :: 'T' :: []))).getD 4
        (Char.ofNat 0) = ' '
      then ([a, b, c] ++ ' ' :: ' ' :: d :: ' ' ::
        (time ++ ' ' :: (year ++ ' ' :: 'G' :: 'M' :: 'T' :: []))).set 4 '0'
      else [a, b, c] ++ ' ' :: ' ' :: d :: ' ' ::
        (time ++ ' ' :: (year ++ ' ' :: 'G' :: 'M' :: 'T' :: []))) =
      [a, b, c] ++ ' ' :: '0' :: d :: ' ' ::
        (time ++ ' ' :: (year ++ ' ' :: 'G' :: 'M' :: 'T' :: [])) := by
    rw [if_pos ⟨rfl, rfl⟩]; rfl
  have e1 := strsepSpace_append [a, b, c]
    ('0' :: d :: ' ' :: (time ++ ' ' :: (year ++ ' ' :: 'G' :: 'M' :: 'T' :: []))) habc
  have e2 := strsepSpace_append ['0', d]
    (time ++ ' ' :: (year ++ ' ' :: 'G' :: 'M' :: 'T' :: [])) (by simp [hd, eq_comm])
  have e3 := strsepSpace_append time (year ++ ' ' :: 'G' :: 'M' :: 'T' :: []) ht
  have e4 := strsepSpace_append year ('G' :: 'M' :: 'T' :: []) hy
  have e5 := strsepSpace_no_space ('G' :: 'M' :: 'T' :: []) (by decide)
  simp only [hbuf, strsepOpt]
  simp only [List.cons_append, List.nil_append] at e1 e2 e3 e4 e5 ⊢
  simp only [e1, e2, e3, e4, e5]
  rw [if_neg (by simp)]
  rw [if_neg (by decide)]
  rw [if_neg (by omega)]
  simp

theorem c8_space_padded_day_witness :
    tls_parse_time "Jan  1 00:00:00 2024 GMT" = .ok "2024-01-01T00:00:00Z" := by
  have h := c8_space_padded_day "Jan  1 00:00:00 2024 GMT" ("Jan" : String).data '1'
    ("00:00:00" : String).data ("2024" : String).data (by decide) (by decide)
    (by decide) (by decide) (by decide) (by decide) (by decide) (by decide)
  exact h.trans (by rfl)

theorem c10_no_timezone_assumes_utc (s s5 : String)
    (mon day time year tz : List Char)
    (hmon3 : mon.length = 3) (hmonsp : ' ' ∉ mon)
    (hday : day ≠ []) (hdaysp : ' ' ∉ day) (ht : ' ' ∉ time) (hy : ' ' ∉ year)
    (hs : s.data = mon ++ ' ' :: (day ++ ' ' :: (time ++ ' ' :: year)))
    (hlen : s.data.length ≤ 127) :
    (monthIdx mon ≤ 11 →
      tls_parse_time s = .ok ⟨year ++ '-' :: fmt02d (monthIdx mon + 1) ++
        '-' :: day ++ 'T' :: time ++ ['Z']⟩)
    ∧ (s5.data = mon ++ ' ' :: (day ++ ' ' :: (time ++ ' ' :: (year ++ ' ' :: tz))) →
       s5.data.length ≤ 127 → ' ' ∉ tz → tz ≠ 'G' :: 'M' :: 'T' :: [] →
       tls_parse_time s5 = .error .InvalidTime) := by
  obtain ⟨a, b, c, rfl⟩ := List.length_eq_three.mp hmon3
  obtain ⟨e, day', rfl⟩ := List.exists_cons_of_ne_nil hday
  have ha : ¬ a = ' ' := fun hh => hmonsp (by simp [hh])
  have hb : ¬ b = ' ' := fun hh => hmonsp (by simp [hh])
  have hc : ¬ c = ' ' := fun hh => hmonsp (by simp [hh])
  have habc : ' ' ∉ [a, b, c] := by simp [ha, hb, hc, eq_comm]
  have he : ¬ e = ' ' := fun hh => hdaysp (by simp [hh])
  constructor
  · intro hidx
    unfold tls_parse_time
    rw [List.take_of_length_le hlen, hs]
    have hbuf : (if ([a, b, c] ++ ' ' :: (e :: day' ++ ' ' ::
          (time ++ ' ' :: year))).getD 3 (Char.ofNat 0) = ' ' ∧
          ([a, b, c] ++ ' ' :: (e :: day' ++ ' ' ::
          (time ++ ' ' :: year))).getD 4 (Char.ofNat 0) = ' '
        then ([a, b, c] ++ ' ' :: (e :: day' ++ ' ' ::
          (time ++ ' ' :: year))).set 4 '0'
        else [a, b, c] ++ ' ' :: (e :: day' ++ ' ' :: (time ++ ' ' :: year))) =
        [a, b, c] ++ ' ' :: (e :: day' ++ ' ' :: (time ++ ' ' :: year)) := by
      rw [if_neg (fun hcond => he hcond.2)]
    have e1 := strsepSpace_append [a, b, c]
      (e :: day' ++ ' ' :: (time ++ ' ' :: year)) habc
    have e2 := strsepSpace_append (e :: day') (time ++ ' ' :: year) hdaysp
    have e3 := strsepSpace_append time year ht
    have e4 := strsepSpace_no_space year hy
    simp only [hbuf, strsepOpt]
    simp only [List.cons_append, List.nil_append] at e1 e2 e3 e4 ⊢
    simp only [e1, e2, e3, e4]
    rw [if_neg (by simp)]
    rw [if_neg (by decide)]
    rw [if_neg (by omega)]
    simp
  · intro hs5 hlen5 htzsp htzne
    unfold tls_parse_time
    rw [List.take_of_length_le hlen5, hs5]
    have hbuf : (if ([a, b, c] ++ ' ' :: (e :: day' ++ ' ' ::
          (time ++ ' ' :: (year ++ ' ' :: tz)))).getD 3 (Char.ofNat 0) = ' ' ∧
          ([a, b, c] ++ ' ' :: (e :: day' ++ ' ' ::
          (time ++ ' ' :: (year ++ ' ' :: tz)))).getD 4 (Char.ofNat 0) = ' '
        then ([a, b, c] ++ ' ' :: (e :: day' ++ ' ' ::
          (time ++ ' ' :: (year ++ ' ' :: tz)))).set 4 '0'
        else [a, b, c] ++ ' ' :: (e :: day' ++ ' ' ::
          (time ++ ' ' :: (year ++ ' ' :: tz)))) =
        [a, b, c] ++ ' ' :: (e :: day' ++ ' ' ::
          (time ++ ' ' :: (year ++ ' ' :: tz))) := by
      rw [if_neg (fun hcond => he hcond.2)]
    have e1 := strsepSpace_append [a, b, c]
      (e :: day' ++ ' ' :: (time ++ ' ' :: (year ++ ' ' :: tz))) habc
    have e2 := strsepSpace_append (e :: day')
      (time ++ ' ' :: (year ++ ' ' :: tz)) hdaysp
    have e3 := strsepSpace_append time (year ++ ' ' :: tz) ht
    have e4 := strsepSpace_append year tz hy
    have e5 := strsepSpace_no_space tz htzsp
    simp only [hbuf, strsepOpt]
    simp only [List.cons_append, List.nil_append] at e1 e2 e3 e4 e5 ⊢
    simp only [e1, e2, e3, e4, e5]
    rw [if_neg (by simp)]
    rw [if_pos (by simp [tzReject, htzne])]

theorem c10_no_timezone_assumes_utc_witness :
    tls_parse_time "Jan 31 00:00:00 2024" = .ok "2024-01-31T00:00:00Z" ∧
    tls_parse_time "Jan 31 00:00:00 2024 UTC" = .error .InvalidTime := by
  have h := c10_no_timezone_assumes_utc "Jan 31 00:00:00 2024"
    "Jan 31 00:00:00 2024 UTC" ("Jan" : String).data ("31" : String).data
    ("00:00:00" : String).data ("2024" : String).data ("UTC" : String).data
    (by decide) (by decide) (by decide) (by decide) (by decide) (by decide)
    (by decide) (by decide)
  exact ⟨(h.1 (by decide)).trans (by rfl),
         h.2 (by decide) (by decide) (by decide) (by decide)⟩

/-! ## Counting lemmas for the name chain -/

theorem someCount_cons (v : Option Bytes) (l : List (Option Bytes)) :
    someCount (v :: l) = (if v.isSome then 1 else 0) + someCount l := by
  simp [someCount, List.countP_cons, Nat.add_comm]

theorem someCount_replicate_none (n : Nat) :
    someCount (List.replicate n (none : Option Bytes)) = 0 := by
  induction n with
  | zero => rfl
  | succ m ih => simpa [List.replicate_succ, someCount_cons] using ih

theorem nameChain_length (l : List (Option Bytes)) :
    (nameChain l).strs.length = l.length := by
  induction l with
  | nil => rfl
  | cons v vs ih =>
    rcases v with _ | bs
    · simp only [nameChain, tls_cert_get_name_string]
      simp [ih]
    · by_cases h : 0 ∈ bs <;>
        simp only [nameChain, tls_cert_get_name_string, if_pos, if_neg, h] <;>
        simp [ih]

theorem nameChain_balance (l : List (Option Bytes)) :
    someCount (nameChain l).strs + (nameChain l).freed = (nameChain l).alloc := by
  induction l with
  | nil => rfl
  | cons v vs ih =>
    rcases v with _ | bs
    · simp only [nameChain, tls_cert_get_name_string]
      simp [someCount_cons]
      omega
    · by_cases h : 0 ∈ bs
      · simp only [nameChain, tls_cert_get_name_string, if_pos h]
        simp [someCount_cons, someCount_replicate_none]
      · simp only [nameChain, tls_cert_get_name_string, if_neg h]
        simp [someCount_cons]
        omega

theorem nameChain_fail (l : List (Option Bytes)) (h : (nameChain l).ret ≠ 0) :
    (nameChain l).err = some .CorruptValue := by
  induction l with
  | nil => exact absurd rfl h
  | cons v vs ih =>
    rcases v with _ | bs
    · simp only [nameChain, tls_cert_get_name_string] at h ⊢
      simp at h ⊢
      exact ih h
    · by_cases hm : 0 ∈ bs
      · simp only [nameChain, tls_cert_get_name_string, if_pos hm]
        simp
      · simp only [nameChain, tls_cert_get_name_string, if_neg hm] at h ⊢
        simp at h ⊢
        exact ih h

theorem nameChain_nul_fails (l : List (Option Bytes))
    (h : ∃ v ∈ l, ∃ bs, v = some bs ∧ 0 ∈ bs) : (nameChain l).ret ≠ 0 := by
  induction l with
  | nil => simp at h
  | cons v vs ih =>
    obtain ⟨w, hw, bs, hbs, hmem⟩ := h
    rcases List.mem_cons.mp hw with hweq | hwtail
    · subst hweq; subst hbs
      simp only [nameChain, tls_cert_get_name_string, if_pos hmem]
      simp
    · rcases v with _ | cs
      · simp only [nameChain, tls_cert_get_name_string]
        simp
        exact ih ⟨w, hwtail, bs, hbs, hmem⟩
      · by_cases hc : 0 ∈ cs
        · simp only [nameChain, tls_cert_get_name_string, if_pos hc]
          simp
        · simp only [nameChain, tls_cert_get_name_string, if_neg hc]
          simp
          exact ih ⟨w, hwtail, bs, hbs, hmem⟩

theorem entityAttrs_mkEntity (l : List (Option Bytes)) (h : l.length = 7) :
    entityAttrs (mkEntity l) = l := by
  rcases l with _|⟨a1,_|⟨a2,_|⟨a3,_|⟨a4,_|⟨a5,_|⟨a6,_|⟨a7,rest⟩⟩⟩⟩⟩⟩⟩ <;>
    simp at h
  rcases rest with _ | _
  · rfl
  · simp at h

theorem entity_balance (n : X509Name) :
    entityFrees (tls_get_entity n).ent + (tls_get_entity n).freed =
      (tls_get_entity n).alloc := by
  unfold tls_get_entity entityFrees
  rw [entityAttrs_mkEntity _ (by rw [nameChain_length]; rfl)]
  exact nameChain_balance _

theorem entity_fail (n : X509Name) (h : (tls_get_entity n).ret ≠ 0) :
    (tls_get_entity n).err = some .CorruptValue :=
  nameChain_fail _ h

theorem entity_nul_fails (n : X509Name)
    (h : ∃ v ∈ x509NameAttrs n, ∃ bs, v = some bs ∧ 0 ∈ bs) :
    (tls_get_entity n).ret ≠ 0 :=
  nameChain_nul_fails _ h

/-! ## Shape and accounting lemmas for the alt-name loop -/

theorem load_ia5_shape (ia5 : ASN1String) (cert : TlsCertInfo) (ty : AltNameType) :
    tls_load_alt_ia5string ia5 cert ty = ⟨0, cert, none, 0, 0⟩ ∨
    tls_load_alt_ia5string ia5 cert ty = ⟨-1, cert, some .InvalidAltName, 0, 0⟩ ∨
    tls_load_alt_ia5string ia5 cert ty =
      ⟨0, { cert with
            subject_alt_names :=
              some ((cert.subject_alt_names.getD []) ++ [⟨ia5.data, ty⟩]),
            subject_alt_name_count := cert.subject_alt_name_count + 1 },
       none, 1, 0⟩ := by
  unfold tls_load_alt_ia5string
  by_cases h0 : ia5.format ≠ V_ASN1_IA5STRING
  · rw [if_pos h0]; exact Or.inl rfl
  · rw [if_neg h0]
    by_cases h1 : ia5.data.length = 0 ∨ 0 ∈ ia5.data
    · rw [if_pos h1]; exact Or.inr (Or.inl rfl)
    · rw [if_neg h1]
      by_cases h2 : ia5.data.length = 1 ∧ ia5.data.getD 0 0 = 32
      · rw [if_pos h2]; exact Or.inr (Or.inl rfl)
      · rw [if_neg h2]; exact Or.inr (Or.inr rfl)

theorem load_ipaddr_shape (bin : Bytes) (cert : TlsCertInfo) :
    tls_load_alt_ipaddr bin cert = ⟨-1, cert, some .InvalidAltName, 0, 0⟩ ∨
    tls_load_alt_ipaddr bin cert =
      ⟨0, { cert with
            subject_alt_names :=
              some ((cert.subject_alt_names.getD []) ++
                    [⟨bin, if bin.length = 4 then .IPv4 else .IPv6⟩]),
            subject_alt_name_count := cert.subject_alt_name_count + 1 },
       none, 1, 0⟩ := by
  unfold tls_load_alt_ipaddr
  by_cases h : bin.length = 4 ∨ bin.length = 16
  · rw [if_pos h]; exact Or.inr rfl
  · rw [if_neg h]; exact Or.inl rfl

theorem liveCount_append_entry (cert : TlsCertInfo) (x : TlsCertAltName)
    (h : cert.subject_alt_names.isSome) :
    liveCount { cert with
      subject_alt_names := some ((cert.subject_alt_names.getD []) ++ [x]),
      subject_alt_name_count := cert.subject_alt_name_count + 1 } =
    liveCount cert + 1 := by
  simp [liveCount, h]
  omega

theorem altLoop_balance (names : List GeneralName) : ∀ (rv : Int) (cert : TlsCertInfo),
    cert.subject_alt_names.isSome →
    (altLoop names rv cert).cert.subject_alt_names.isSome ∧
    liveCount (altLoop names rv cert).cert + (altLoop names rv cert).freed =
      liveCount cert + (altLoop names rv cert).alloc := by
  induction names with
  | nil => intro rv cert h; exact ⟨h, by simp [altLoop]⟩
  | cons n rest ih =>
    intro rv cert h
    have step : ∀ s : StepRes,
        (s = ⟨0, cert, none, 0, 0⟩ ∨ s = ⟨-1, cert, some .InvalidAltName, 0, 0⟩ ∨
         (∃ x, s = ⟨0, { cert with
            subject_alt_names := some ((cert.subject_alt_names.getD []) ++ [x]),
            subject_alt_name_count := cert.subject_alt_name_count + 1 },
            none, 1, 0⟩) ∨ s = ⟨rv, cert, none, 0, 0⟩) →
        (altLoop (n :: rest) rv cert =
          (if s.ret < 0 then s else
            ⟨(altLoop rest s.ret s.cert).ret, (altLoop rest s.ret s.cert).cert,
             (altLoop rest s.ret s.cert).err,
             s.alloc + (altLoop rest s.ret s.cert).alloc,
             s.freed + (altLoop rest s.ret s.cert).freed⟩)) →
        (altLoop (n :: rest) rv cert).cert.subject_alt_names.isSome ∧
        liveCount (altLoop (n :: rest) rv cert).cert +
          (altLoop (n :: rest) rv cert).freed =
          liveCount cert + (altLoop (n :: rest) rv cert).alloc := by
      intro s hs heq
      rw [heq]
      have hscert : s.cert.subject_alt_names.isSome ∧
          liveCount s.cert + s.freed = liveCount cert + s.alloc := by
        rcases hs with hs | hs | ⟨x, hs⟩ | hs <;> subst hs
        · exact ⟨h, rfl⟩
        · exact ⟨h, rfl⟩
        · refine ⟨by simp, ?_⟩
          show liveCount { cert with
              subject_alt_names := some ((cert.subject_alt_names.getD []) ++ [x]),
              subject_alt_name_count := cert.subject_alt_name_count + 1 } + 0 =
            liveCount cert + 1
          rw [liveCount_append_entry cert x h]
        · exact ⟨h, rfl⟩
      have h3 := hscert.2
      by_cases hret : s.ret < 0
      · rw [if_pos hret]
        exact hscert
      · rw [if_neg hret]
        obtain ⟨h1, h2⟩ := ih s.ret s.cert hscert.1
        refine ⟨h1, ?_⟩
        show liveCount (altLoop rest s.ret s.cert).cert +
            (s.freed + (altLoop rest s.ret s.cert).freed) =
            liveCount cert + (s.alloc + (altLoop rest s.ret s.cert).alloc)
        omega
    rcases n with ⟨s0⟩ | ⟨s0⟩ | ⟨s0⟩ | bin | _
    · refine step (tls_load_alt_ia5string s0 cert .DNS) ?_ rfl
      rcases load_ia5_shape s0 cert .DNS with hs | hs | hs
      · exact Or.inl hs
      · exact Or.inr (Or.inl hs)
      · exact Or.inr (Or.inr (Or.inl ⟨_, hs⟩))
    · refine step (tls_load_alt_ia5string s0 cert .EMAIL) ?_ rfl
      rcases load_ia5_shape s0 cert .EMAIL with hs | hs | hs
      · exact Or.inl hs
      · exact Or.inr (Or.inl hs)
      · exact Or.inr (Or.inr (Or.inl ⟨_, hs⟩))
    · refine step (tls_load_alt_ia5string s0 cert .URI) ?_ rfl
      rcases load_ia5_shape s0 cert .URI with hs | hs | hs
      · exact Or.inl hs
      · exact Or.inr (Or.inl hs)
      · exact Or.inr (Or.inr (Or.inl ⟨_, hs⟩))
    · refine step (tls_load_alt_ipaddr bin cert) ?_ rfl
      rcases load_ipaddr_shape bin cert with hs | hs
      · exact Or.inr (Or.inl hs)
      · exact Or.inr (Or.inr (Or.inl ⟨_, hs⟩))
    · exact step ⟨rv, cert, none, 0, 0⟩ (Or.inr (Or.inr (Or.inr rfl))) rfl

theorem altLoop_frame (names : List GeneralName) : ∀ (rv : Int) (cert : TlsCertInfo),
    (altLoop names rv cert).cert.serial = cert.serial ∧
    (altLoop names rv cert).cert.not_before = cert.not_before ∧
    (altLoop names rv cert).cert.not_after = cert.not_after := by
  induction names with
  | nil => intro rv cert; exact ⟨rfl, rfl, rfl⟩
  | cons n rest ih =>
    intro rv cert
    have step : ∀ s : StepRes,
        (s.cert.serial = cert.serial ∧ s.cert.not_before = cert.not_before ∧
         s.cert.not_after = cert.not_after) →
        (altLoop (n :: rest) rv cert =
          (if s.ret < 0 then s else
            ⟨(altLoop rest s.ret s.cert).ret, (altLoop rest s.ret s.cert).cert,
             (altLoop rest s.ret s.cert).err,
             s.alloc + (altLoop rest s.ret s.cert).alloc,
             s.freed + (altLoop rest s.ret s.cert).freed⟩)) →
        (altLoop (n :: rest) rv cert).cert.serial = cert.serial ∧
        (altLoop (n :: rest) rv cert).cert.not_before = cert.not_before ∧
        (altLoop (n :: rest) rv cert).cert.not_after = cert.not_after := by
      intro s hs heq
      rw [heq]
      by_cases hret : s.ret < 0
      · rw [if_pos hret]; exact hs
      · rw [if_neg hret]
        obtain ⟨f1, f2, f3⟩ := ih s.ret s.cert
        exact ⟨by show (altLoop rest s.ret s.cert).cert.serial = cert.serial;
                  rw [f1, hs.1],
               by show (altLoop rest s.ret s.cert).cert.not_before = cert.not_before;
                  rw [f2, hs.2.1],
               by show (altLoop rest s.ret s.cert).cert.not_after = cert.not_after;
                  rw [f3, hs.2.2]⟩
    rcases n with ⟨s0⟩ | ⟨s0⟩ | ⟨s0⟩ | bin | _
    · refine step (tls_load_alt_ia5string s0 cert .DNS) ?_ rfl
      rcases load_ia5_shape s0 cert .DNS with hs | hs | hs <;> rw [hs] <;>
        exact ⟨rfl, rfl, rfl⟩
    · refine step (tls_load_alt_ia5string s0 cert .EMAIL) ?_ rfl
      rcases load_ia5_shape s0 cert .EMAIL with hs | hs | hs <;> rw [hs] <;>
        exact ⟨rfl, rfl, rfl⟩
    · refine step (tls_load_alt_ia5string s0 cert .URI) ?_ rfl
      rcases load_ia5_shape s0 cert .URI with hs | hs | hs <;> rw [hs] <;>
        exact ⟨rfl, rfl, rfl⟩
    · refine step (tls_load_alt_ipaddr bin cert) ?_ rfl
      rcases load_ipaddr_shape bin cert with hs | hs <;> rw [hs] <;>
        exact ⟨rfl, rfl, rfl⟩
    · exact step ⟨rv, cert, none, 0, 0⟩ ⟨rfl, rfl, rfl⟩ rfl

theorem altLoop_count (names : List GeneralName) : ∀ (rv : Int) (cert : TlsCertInfo)
    (l : List TlsCertAltName),
    cert.subject_alt_names = some l → cert.subject_alt_name_count = l.length →
    ∃ l', (altLoop names rv cert).cert.subject_alt_names = some l' ∧
      (altLoop names rv cert).cert.subject_alt_name_count = l'.length := by
  induction names with
  | nil => intro rv cert l hl hc; exact ⟨l, hl, hc⟩
  | cons n rest ih =>
    intro rv cert l hl hc
    have step : ∀ s : StepRes,
        (s.cert = cert ∨
         (∃ x, s.cert = { cert with
            subject_alt_names := some ((cert.subject_alt_names.getD []) ++ [x]),
            subject_alt_name_count := cert.subject_alt_name_count + 1 })) →
        (altLoop (n :: rest) rv cert =
          (if s.ret < 0 then s else
            ⟨(altLoop rest s.ret s.cert).ret, (altLoop rest s.ret s.cert).cert,
             (altLoop rest s.ret s.cert).err,
             s.alloc + (altLoop rest s.ret s.cert).alloc,
             s.freed + (altLoop rest s.ret s.cert).freed⟩)) →
        ∃ l', (altLoop (n :: rest) rv cert).cert.subject_alt_names = some l' ∧
          (altLoop (n :: rest) rv cert).cert.subject_alt_name_count = l'.length := by
      intro s hs heq
      rw [heq]
      have hinv : ∃ m, s.cert.subject_alt_names = some m ∧
          s.cert.subject_alt_name_count = m.length := by
        rcases hs with hs | ⟨x, hs⟩ <;> rw [hs]
        · exact ⟨l, hl, hc⟩
        · refine ⟨l ++ [x], ?_, ?_⟩
          · show some ((cert.subject_alt_names.getD []) ++ [x]) = some (l ++ [x])
            rw [hl]
            rfl
          · show cert.subject_alt_name_count + 1 = (l ++ [x]).length
            simp [hc]
      by_cases hret : s.ret < 0
      · rw [if_pos hret]; exact hinv
      · rw [if_neg hret]
        obtain ⟨m, hm1, hm2⟩ := hinv
        obtain ⟨l', h1, h2⟩ := ih s.ret s.cert m hm1 hm2
        exact ⟨l', h1, h2⟩
    rcases n with ⟨s0⟩ | ⟨s0⟩ | ⟨s0⟩ | bin | _
    · refine step (tls_load_alt_ia5string s0 cert .DNS) ?_ rfl
      rcases load_ia5_shape s0 cert .DNS with hs | hs | hs <;> rw [hs]
      · exact Or.inl rfl
      · exact Or.inl rfl
      · exact Or.inr ⟨_, rfl⟩
    · refine step (tls_load_alt_ia5string s0 cert .EMAIL) ?_ rfl
      rcases load_ia5_shape s0 cert .EMAIL with hs | hs | hs <;> rw [hs]
      · exact Or.inl rfl
      · exact Or.inl rfl
      · exact Or.inr ⟨_, rfl⟩
    · refine step (tls_load_alt_ia5string s0 cert .URI) ?_ rfl
      rcases load_ia5_shape s0 cert .URI with hs | hs | hs <;> rw [hs]
      · exact Or.inl rfl
      · exact Or.inl rfl
      · exact Or.inr ⟨_, rfl⟩
    · refine step (tls_load_alt_ipaddr bin cert) ?_ rfl
      rcases load_ipaddr_shape bin cert with hs | hs <;> rw [hs]
      · exact Or.inl rfl
      · exact Or.inr ⟨_, rfl⟩
    · exact step ⟨rv, cert, none, 0, 0⟩ (Or.inl rfl) rfl

theorem load_ia5_ok (ia5 : ASN1String) (cert : TlsCertInfo) (ty : AltNameType)
    (hfmt : ia5.format = V_ASN1_IA5STRING) (hne : ia5.data ≠ [])
    (hnul : 0 ∉ ia5.data) (hsp : ia5.data ≠ [32]) :
    tls_load_alt_ia5string ia5 cert ty =
      ⟨0, { cert with
            subject_alt_names :=
              some ((cert.subject_alt_names.getD []) ++ [⟨ia5.data, ty⟩]),
            subject_alt_name_count := cert.subject_alt_name_count + 1 },
       none, 1, 0⟩ := by
  unfold tls_load_alt_ia5string
  rw [if_neg (by simp [hfmt])]
  rw [if_neg (by simp [List.length_eq_zero, hne, hnul])]
  rw [if_neg (fun hh => hsp ((list_singleton_32 ia5.data).mp hh))]

theorem load_ipaddr_ok (bin : Bytes) (cert : TlsCertInfo)
    (h : bin.length = 4 ∨ bin.length = 16) :
    tls_load_alt_ipaddr bin cert =
      ⟨0, { cert with
            subject_alt_names :=
              some ((cert.subject_alt_names.getD []) ++
                    [⟨bin, if bin.length = 4 then .IPv4 else .IPv6⟩]),
            subject_alt_name_count := cert.subject_alt_name_count + 1 },
       none, 1, 0⟩ := by
  unfold tls_load_alt_ipaddr
  rw [if_pos h]

theorem altLoop_all_ok (names : List GeneralName) : ∀ (rv : Int) (cert : TlsCertInfo)
    (l : List TlsCertAltName),
    (∀ n ∈ names, altEntryOk n) → cert.subject_alt_names = some l →
    (altLoop names rv cert).ret = 0 ∧
    (altLoop names rv cert).cert.subject_alt_names =
      some (l ++ names.map altEntryVal) ∧
    (altLoop names rv cert).cert.subject_alt_name_count =
      cert.subject_alt_name_count + names.length := by
  induction names with
  | nil => intro rv cert l _ hl; exact ⟨rfl, by simpa using hl, rfl⟩
  | cons n rest ih =>
    intro rv cert l hok hl
    have hn : altEntryOk n := hok n (List.mem_cons_self n rest)
    have hrest : ∀ m ∈ rest, altEntryOk m :=
      fun m hm => hok m (List.mem_cons_of_mem n hm)
    have step : ∀ s : StepRes,
        s = ⟨0, { cert with
              subject_alt_names :=
                some ((cert.subject_alt_names.getD []) ++ [altEntryVal n]),
              subject_alt_name_count := cert.subject_alt_name_count + 1 },
             none, 1, 0⟩ →
        (altLoop (n :: rest) rv cert =
          (if s.ret < 0 then s else
            ⟨(altLoop rest s.ret s.cert).ret, (altLoop rest s.ret s.cert).cert,
             (altLoop rest s.ret s.cert).err,
             s.alloc + (altLoop rest s.ret s.cert).alloc,
             s.freed + (altLoop rest s.ret s.cert).freed⟩)) →
        (altLoop (n :: rest) rv cert).ret = 0 ∧
        (altLoop (n :: rest) rv cert).cert.subject_alt_names =
          some (l ++ (n :: rest).map altEntryVal) ∧
        (altLoop (n :: rest) rv cert).cert.subject_alt_name_count =
          cert.subject_alt_name_count + (n :: rest).length := by
      intro s hs heq
      subst hs
      rw [heq]
      rw [if_neg (by norm_num)]
      obtain ⟨h1, h2, h3⟩ := ih 0 ({ cert with
          subject_alt_names :=
            some ((cert.subject_alt_names.getD []) ++ [altEntryVal n]),
          subject_alt_name_count := cert.subject_alt_name_count + 1 })
        (l ++ [altEntryVal n]) hrest
        (by show some ((cert.subject_alt_names.getD []) ++ [altEntryVal n]) =
              some (l ++ [altEntryVal n])
            rw [hl]
            rfl)
      refine ⟨h1, ?_, ?_⟩
      · show (altLoop rest 0 _).cert.subject_alt_names =
          some (l ++ (n :: rest).map altEntryVal)
        rw [h2]
        simp
      · show (altLoop rest 0 _).cert.subject_alt_name_count =
          cert.subject_alt_name_count + (n :: rest).length
        rw [h3]
        show cert.subject_alt_name_count + 1 + rest.length =
          cert.subject_alt_name_count + (rest.length + 1)
        omega
    rcases n with ⟨s0⟩ | ⟨s0⟩ | ⟨s0⟩ | bin | _
    · simp only [altEntryOk, decide_eq_true_eq] at hn
      exact step _ (load_ia5_ok s0 cert .DNS hn.1 hn.2.1 hn.2.2.1 hn.2.2.2) rfl
    · simp only [altEntryOk, decide_eq_true_eq] at hn
      exact step _ (load_ia5_ok s0 cert .EMAIL hn.1 hn.2.1 hn.2.2.1 hn.2.2.2) rfl
    · simp only [altEntryOk, decide_eq_true_eq] at hn
      exact step _ (load_ia5_ok s0 cert .URI hn.1 hn.2.1 hn.2.2.1 hn.2.2.2) rfl
    · simp only [altEntryOk, decide_eq_true_eq] at hn
      exact step _ (load_ipaddr_ok bin cert hn) rfl
    · simp [altEntryOk] at hn

theorem get_altnames_nil (names : List GeneralName) (cert : TlsCertInfo)
    (hlen : names.length = 0) :
    tls_cert_get_altnames (some names) cert = ⟨0, cert, none, 0, 0⟩ := by
  show (if names.length = 0 then (⟨0, cert, none, 0, 0⟩ : StepRes)
        else ⟨(altLoop names (-1) { cert with subject_alt_names := some [] }).ret,
              (altLoop names (-1) { cert with subject_alt_names := some [] }).cert,
              (altLoop names (-1) { cert with subject_alt_names := some [] }).err,
              1 + (altLoop names (-1) { cert with subject_alt_names := some [] }).alloc,
              (altLoop names (-1) { cert with subject_alt_names := some [] }).freed⟩) =
    ⟨0, cert, none, 0, 0⟩
  rw [if_pos hlen]

theorem get_altnames_run (names : List GeneralName) (cert : TlsCertInfo)
    (hlen : ¬ names.length = 0) :
    tls_cert_get_altnames (some names) cert =
      ⟨(altLoop names (-1) { cert with subject_alt_names := some [] }).ret,
       (altLoop names (-1) { cert with subject_alt_names := some [] }).cert,
       (altLoop names (-1) { cert with subject_alt_names := some [] }).err,
       1 + (altLoop names (-1) { cert with subject_alt_names := some [] }).alloc,
       (altLoop names (-1) { cert with subject_alt_names := some [] }).freed⟩ := by
  show (if names.length = 0 then (⟨0, cert, none, 0, 0⟩ : StepRes)
        else ⟨(altLoop names (-1) { cert with subject_alt_names := some [] }).ret,
              (altLoop names (-1) { cert with subject_alt_names := some [] }).cert,
              (altLoop names (-1) { cert with subject_alt_names := some [] }).err,
              1 + (altLoop names (-1) { cert with subject_alt_names := some [] }).alloc,
              (altLoop names (-1) { cert with subject_alt_names := some [] }).freed⟩) = _
  rw [if_neg hlen]

theorem altnames_balance (ext : Option (List GeneralName)) (cert : TlsCertInfo)
    (h : cert.subject_alt_names = none) :
    liveCount (tls_cert_get_altnames ext cert).cert +
      (tls_cert_get_altnames ext cert).freed =
      liveCount cert + (tls_cert_get_altnames ext cert).alloc ∧
    (tls_cert_get_altnames ext cert).cert.serial = cert.serial ∧
    (tls_cert_get_altnames ext cert).cert.not_before = cert.not_before ∧
    (tls_cert_get_altnames ext cert).cert.not_after = cert.not_after := by
  match ext with
  | none => exact ⟨rfl, rfl, rfl, rfl⟩
  | some names =>
    by_cases hlen : names.length = 0
    · rw [get_altnames_nil names cert hlen]
      exact ⟨rfl, rfl, rfl, rfl⟩
    · rw [get_altnames_run names cert hlen]
      have hb := altLoop_balance names (-1)
        { cert with subject_alt_names := some [] } (by simp)
      have hf := altLoop_frame names (-1)
        { cert with subject_alt_names := some [] }
      have hlc : liveCount { cert with subject_alt_names := some [] } =
          liveCount cert + 1 := by
        simp [liveCount, h]
        omega
      refine ⟨?_, ?_, ?_, ?_⟩
      · show liveCount (altLoop names (-1)
            { cert with subject_alt_names := some [] }).cert +
          (altLoop names (-1) { cert with subject_alt_names := some [] }).freed =
          liveCount cert +
          (1 + (altLoop names (-1) { cert with subject_alt_names := some [] }).alloc)
        have := hb.2
        omega
      · show (altLoop names (-1)
            { cert with subject_alt_names := some [] }).cert.serial = cert.serial
        rw [hf.1]
      · show (altLoop names (-1)
            { cert with subject_alt_names := some [] }).cert.not_before =
          cert.not_before
        rw [hf.2.1]
      · show (altLoop names (-1)
            { cert with subject_alt_names := some [] }).cert.not_after =
          cert.not_after
        rw [hf.2.2]

/-! ## Claim C4 -/

/-- C4 counterexample: a valid certificate whose subjectAltName extension has
two entries, a DNS name "a" and one entry of an unsupported type, yields an
alt-name sequence of one entry, not two: skipped unknown-type entries are
not recorded, so N extension entries do not imply N recorded names. -/
theorem c4_unknown_entry_not_counted :
    (tls_cert_get_altnames (some [.dns ⟨22, [97]⟩, .other])
      (emptyCert 0)).ret = 0 ∧
    (tls_cert_get_altnames (some [.dns ⟨22, [97]⟩, .other])
      (emptyCert 0)).cert.subject_alt_names = some [⟨[97], .DNS⟩] ∧
    (tls_cert_get_altnames (some [.dns ⟨22, [97]⟩, .other])
      (emptyCert 0)).cert.subject_alt_name_count = 1 := by
  exact ⟨rfl, rfl, rfl⟩

/-- C4 (amended): for a certificate whose N subjectAltName entries are all of
the supported kinds and individually valid, the resulting sequence has
exactly N entries, in encounter order, with the recorded count equal to N;
and for every subjectAltName stack whatsoever the recorded count equals
the number of entries actually stored in the array. -/
theorem c4_supported_altnames_exact (names : List GeneralName)
    (cert : TlsCertInfo) (hcert : cert.subject_alt_names = none)
    (hcount : cert.subject_alt_name_count = 0)
    (hok : ∀ n ∈ names, altEntryOk n) (hne : names ≠ []) :
    ((tls_cert_get_altnames (some names) cert).ret = 0 ∧
     (tls_cert_get_altnames (some names) cert).cert.subject_alt_names =
       some (names.map altEntryVal) ∧
     (tls_cert_get_altnames (some names) cert).cert.subject_alt_name_count =
       names.length) ∧
    (∀ (names2 : List GeneralName) (l' : List TlsCertAltName),
      (tls_cert_get_altnames (some names2) cert).cert.subject_alt_names =
        some l' →
      (tls_cert_get_altnames (some names2) cert).cert.subject_alt_name_count =
        l'.length) := by
  constructor
  · have hlen : ¬ names.length = 0 := by
      simpa [List.length_eq_zero] using hne
    rw [get_altnames_run names cert hlen]
    obtain ⟨h1, h2, h3⟩ := altLoop_all_ok names (-1)
      { cert with subject_alt_names := some [] } [] hok rfl
    refine ⟨h1, ?_, ?_⟩
    · show (altLoop names (-1)
          { cert with subject_alt_names := some [] }).cert.subject_alt_names =
        some (names.map altEntryVal)
      rw [h2]
      simp
    · show (altLoop names (-1)
          { cert with subject_alt_names := some [] }).cert.subject_alt_name_count =
        names.length
      rw [h3]
      show cert.subject_alt_name_count + names.length = names.length
      omega
  · intro names2 l' hl'
    by_cases hlen2 : names2.length = 0
    · rw [get_altnames_nil names2 cert hlen2] at hl' ⊢
      exact absurd (hcert ▸ hl') (by simp)
    · rw [get_altnames_run names2 cert hlen2] at hl' ⊢
      obtain ⟨m, hm1, hm2⟩ := altLoop_count names2 (-1)
        { cert with subject_alt_names := some [] } [] rfl
        (by show cert.subject_alt_name_count = 0; exact hcount)
      have hl2 : (altLoop names2 (-1)
          { cert with subject_alt_names := some [] }).cert.subject_alt_names =
          some l' := hl'
      rw [hm1] at hl2
      have hlm : m = l' := Option.some_inj.mp hl2
      show (altLoop names2 (-1)
          { cert with subject_alt_names := some [] }).cert.subject_alt_name_count =
        l'.length
      rw [hm2, hlm]

/-- Witness for C4 at concrete inputs: two valid supported entries (a DNS
name and an IPv4 address) are both recorded, in order, with count 2. -/
theorem c4_supported_altnames_exact_witness :
    (tls_cert_get_altnames (some [.dns ⟨22, [104, 105]⟩, .ipaddr [10, 0, 0, 1]])
      (emptyCert 0)).ret = 0 ∧
    (tls_cert_get_altnames (some [.dns ⟨22, [104, 105]⟩, .ipaddr [10, 0, 0, 1]])
      (emptyCert 0)).cert.subject_alt_names =
      some [⟨[104, 105], .DNS⟩, ⟨[10, 0, 0, 1], .IPv4⟩] ∧
    (tls_cert_get_altnames (some [.dns ⟨22, [104, 105]⟩, .ipaddr [10, 0, 0, 1]])
      (emptyCert 0)).cert.subject_alt_name_count = 2 := by
  have h := (c4_supported_altnames_exact
    [.dns ⟨22, [104, 105]⟩, .ipaddr [10, 0, 0, 1]] (emptyCert 0)
    rfl rfl (by decide) (by decide)).1
  exact ⟨h.1, h.2.1.trans (by rfl), h.2.2⟩

/-! ## Cleanup accounting through the extraction chain -/

theorem tls_cert_free_eq (c : TlsCertInfo) : tls_cert_free c = liveCount c + 1 := rfl

theorem liveCount_c1 (v : Int) (ent : TlsCertEntity) :
    liveCount { emptyCert v with subject := ent } = entityFrees ent := by
  show entityFrees emptyEntity + entityFrees ent + 0 +
      (if (none : Option (List TlsCertAltName)).isSome then 1 else 0) +
      (if (none : Option String).isSome then 1 else 0) +
      (if (none : Option String).isSome then 1 else 0) +
      (if (none : Option String).isSome then 1 else 0) = entityFrees ent
  simp [entityFrees, entityAttrs, emptyEntity, someCount]

theorem liveCount_c2 (v : Int) (ent ent' : TlsCertEntity) :
    liveCount { emptyCert v with subject := ent, issuer := ent' } =
      entityFrees ent' + entityFrees ent := by
  show entityFrees ent' + entityFrees ent + 0 +
      (if (none : Option (List TlsCertAltName)).isSome then 1 else 0) +
      (if (none : Option String).isSome then 1 else 0) +
      (if (none : Option String).isSome then 1 else 0) +
      (if (none : Option String).isSome then 1 else 0) =
    entityFrees ent' + entityFrees ent
  simp

theorem afterAltnames_spec (peer : X509) (cert : TlsCertInfo)
    (hnb : cert.not_before = none) (hna : cert.not_after = none) :
    (afterAltnames peer cert).ret ≠ 0 →
      (afterAltnames peer cert).cert_out = none ∧
      (afterAltnames peer cert).freed =
        (afterAltnames peer cert).alloc + liveCount cert + 1 := by
  rcases h1 : tls_parse_time peer.notBefore with e1 | nb
  · have e : afterAltnames peer cert = ⟨-1, none, some e1, 0, tls_cert_free cert⟩ := by
      unfold afterAltnames
      rw [h1]
    rw [e]
    intro _
    refine ⟨rfl, ?_⟩
    show tls_cert_free cert = 0 + liveCount cert + 1
    rw [tls_cert_free_eq]
    omega
  · rcases h2 : tls_parse_time peer.notAfter with e2 | na
    · have e : afterAltnames peer cert =
          ⟨-1, none, some e2, 1, tls_cert_free { cert with not_before := some nb }⟩ := by
        unfold afterAltnames
        rw [h1, h2]
      rw [e]
      intro _
      refine ⟨rfl, ?_⟩
      show tls_cert_free { cert with not_before := some nb } = 1 + liveCount cert + 1
      rw [tls_cert_free_eq]
      have hl : liveCount { cert with not_before := some nb } = liveCount cert + 1 := by
        simp [liveCount, hnb]
        omega
      omega
    · rcases h3 : tls_parse_bigint peer.serialNumber with e3 | ser
      · have e : afterAltnames peer cert =
            ⟨-1, none, some e3, 2, tls_cert_free
              { cert with not_before := some nb, not_after := some na }⟩ := by
          unfold afterAltnames
          rw [h1, h2, h3]
        rw [e]
        intro _
        refine ⟨rfl, ?_⟩
        show tls_cert_free { cert with not_before := some nb, not_after := some na } =
          2 + liveCount cert + 1
        rw [tls_cert_free_eq]
        have hl : liveCount { cert with not_before := some nb, not_after := some na } =
            liveCount cert + 2 := by
          simp [liveCount, hnb, hna]
        omega
      · have e : afterAltnames peer cert =
            ⟨0, some { cert with
                       not_before := some nb
                       not_after := some na
                       serial := some ser }, none, 3, 0⟩ := by
          unfold afterAltnames
          rw [h1, h2, h3]
        rw [e]
        intro h
        exact absurd rfl h

theorem afterEntities_red (peer : X509) (cert : TlsCertInfo) :
    afterEntities peer cert =
      (if (tls_cert_get_altnames peer.subject_alt_name_ext cert).ret ≠ 0 then
        ⟨(tls_cert_get_altnames peer.subject_alt_name_ext cert).ret, none,
         (tls_cert_get_altnames peer.subject_alt_name_ext cert).err,
         (tls_cert_get_altnames peer.subject_alt_name_ext cert).alloc,
         (tls_cert_get_altnames peer.subject_alt_name_ext cert).freed +
           tls_cert_free (tls_cert_get_altnames peer.subject_alt_name_ext cert).cert⟩
      else
        ⟨(afterAltnames peer (tls_cert_get_altnames peer.subject_alt_name_ext cert).cert).ret,
         (afterAltnames peer (tls_cert_get_altnames peer.subject_alt_name_ext cert).cert).cert_out,
         (afterAltnames peer (tls_cert_get_altnames peer.subject_alt_name_ext cert).cert).err,
         (tls_cert_get_altnames peer.subject_alt_name_ext cert).alloc +
           (afterAltnames peer (tls_cert_get_altnames peer.subject_alt_name_ext cert).cert).alloc,
         (tls_cert_get_altnames peer.subject_alt_name_ext cert).freed +
           (afterAltnames peer (tls_cert_get_altnames peer.subject_alt_name_ext cert).cert).freed⟩) := rfl

theorem afterEntities_spec (peer : X509) (cert : TlsCertInfo)
    (halt : cert.subject_alt_names = none)
    (hnb : cert.not_before = none) (hna : cert.not_after = none) :
    (afterEntities peer cert).ret ≠ 0 →
      (afterEntities peer cert).cert_out = none ∧
      (afterEntities peer cert).freed =
        (afterEntities peer cert).alloc + liveCount cert + 1 := by
  have hb := altnames_balance peer.subject_alt_name_ext cert halt
  rw [afterEntities_red]
  by_cases hret : (tls_cert_get_altnames peer.subject_alt_name_ext cert).ret ≠ 0
  · rw [if_pos hret]
    intro _
    refine ⟨rfl, ?_⟩
    show (tls_cert_get_altnames peer.subject_alt_name_ext cert).freed +
        tls_cert_free (tls_cert_get_altnames peer.subject_alt_name_ext cert).cert =
      (tls_cert_get_altnames peer.subject_alt_name_ext cert).alloc +
        liveCount cert + 1
    rw [tls_cert_free_eq]
    have := hb.1
    omega
  · rw [if_neg hret]
    intro hr
    have hr' : (afterAltnames peer
        (tls_cert_get_altnames peer.subject_alt_name_ext cert).cert).ret ≠ 0 := hr
    obtain ⟨o1, o2⟩ := afterAltnames_spec peer
      (tls_cert_get_altnames peer.subject_alt_name_ext cert).cert
      (by rw [hb.2.2.1, hnb]) (by rw [hb.2.2.2, hna]) hr'
    refine ⟨o1, ?_⟩
    show (tls_cert_get_altnames peer.subject_alt_name_ext cert).freed +
        (afterAltnames peer (tls_cert_get_altnames peer.subject_alt_name_ext cert).cert).freed =
      ((tls_cert_get_altnames peer.subject_alt_name_ext cert).alloc +
        (afterAltnames peer (tls_cert_get_altnames peer.subject_alt_name_ext cert).cert).alloc) +
        liveCount cert + 1
    have := hb.1
    omega

theorem body_red (peer : X509) (subject issuer : X509Name) :
    tls_get_peer_cert_body peer subject issuer =
      (if (tls_get_entity subject).ret ≠ 0 then
        ⟨(tls_get_entity subject).ret, none, (tls_get_entity subject).err,
         1 + (tls_get_entity subject).alloc,
         (tls_get_entity subject).freed +
           tls_cert_free { emptyCert peer.version with
             subject := (tls_get_entity subject).ent }⟩
      else if (tls_get_entity issuer).ret ≠ 0 then
        ⟨(tls_get_entity issuer).ret, none, (tls_get_entity issuer).err,
         1 + (tls_get_entity subject).alloc + (tls_get_entity issuer).alloc,
         (tls_get_entity subject).freed + (tls_get_entity issuer).freed +
           tls_cert_free { emptyCert peer.version with
             subject := (tls_get_entity subject).ent,
             issuer := (tls_get_entity issuer).ent }⟩
      else
        ⟨(afterEntities peer { emptyCert peer.version with
            subject := (tls_get_entity subject).ent,
            issuer := (tls_get_entity issuer).ent }).ret,
         (afterEntities peer { emptyCert peer.version with
            subject := (tls_get_entity subject).ent,
            issuer := (tls_get_entity issuer).ent }).cert_out,
         (afterEntities peer { emptyCert peer.version with
            subject := (tls_get_entity subject).ent,
            issuer := (tls_get_entity issuer).ent }).err,
         1 + (tls_get_entity subject).alloc + (tls_get_entity issuer).alloc +
           (afterEntities peer { emptyCert peer.version with
              subject := (tls_get_entity subject).ent,
              issuer := (tls_get_entity issuer).ent }).alloc,
         (tls_get_entity subject).freed + (tls_get_entity issuer).freed +
           (afterEntities peer { emptyCert peer.version with
              subject := (tls_get_entity subject).ent,
              issuer := (tls_get_entity issuer).ent }).freed⟩) := rfl

theorem body_spec (peer : X509) (subject issuer : X509Name) :
    (tls_get_peer_cert_body peer subject issuer).ret ≠ 0 →
      (tls_get_peer_cert_body peer subject issuer).cert_out = none ∧
      (tls_get_peer_cert_body peer subject issuer).alloc =
        (tls_get_peer_cert_body peer subject issuer).freed := by
  rw [body_red]
  by_cases h1 : (tls_get_entity subject).ret ≠ 0
  · rw [if_pos h1]
    intro _
    refine ⟨rfl, ?_⟩
    show 1 + (tls_get_entity subject).alloc =
      (tls_get_entity subject).freed +
        tls_cert_free { emptyCert peer.version with
          subject := (tls_get_entity subject).ent }
    rw [tls_cert_free_eq, liveCount_c1]
    have := entity_balance subject
    omega
  · rw [if_neg h1]
    by_cases h2 : (tls_get_entity issuer).ret ≠ 0
    · rw [if_pos h2]
      intro _
      refine ⟨rfl, ?_⟩
      show 1 + (tls_get_entity subject).alloc + (tls_get_entity issuer).alloc =
        (tls_get_entity subject).freed + (tls_get_entity issuer).freed +
          tls_cert_free { emptyCert peer.version with
            subject := (tls_get_entity subject).ent,
            issuer := (tls_get_entity issuer).ent }
      rw [tls_cert_free_eq, liveCount_c2]
      have hb1 := entity_balance subject
      have hb2 := entity_balance issuer
      omega
    · rw [if_neg h2]
      intro hr
      have hr' : (afterEntities peer { emptyCert peer.version with
          subject := (tls_get_entity subject).ent,
          issuer := (tls_get_entity issuer).ent }).ret ≠ 0 := hr
      obtain ⟨o1, o2⟩ := afterEntities_spec peer
        { emptyCert peer.version with
          subject := (tls_get_entity subject).ent,
          issuer := (tls_get_entity issuer).ent } rfl rfl rfl hr'
      refine ⟨o1, ?_⟩
      show 1 + (tls_get_entity subject).alloc + (tls_get_entity issuer).alloc +
          (afterEntities peer { emptyCert peer.version with
            subject := (tls_get_entity subject).ent,
            issuer := (tls_get_entity issuer).ent }).alloc =
        (tls_get_entity subject).freed + (tls_get_entity issuer).freed +
          (afterEntities peer { emptyCert peer.version with
            subject := (tls_get_entity subject).ent,
            issuer := (tls_get_entity issuer).ent }).freed
      rw [liveCount_c2] at o2
      have hb1 := entity_balance subject
      have hb2 := entity_balance issuer
      omega

/-! ## Claims C3 and C7 -/

theorem guard_version (v : Int) (osubj oiss : Option X509Name)
    (ext : Option (List GeneralName)) (nb na : String) (ser : Int)
    (hv : v < 0) :
    tls_get_peer_cert ⟨some ⟨some ⟨v, osubj, oiss, ext, nb, na, ser⟩⟩⟩ =
      ⟨-1, none, some .InvalidVersion, 0, 0⟩ := by
  rcases osubj with _ | subject <;> rcases oiss with _ | issuer <;>
  · show (if v < 0 then (⟨-1, none, some .InvalidVersion, 0, 0⟩ : CertRes)
          else _) = _
    rw [if_pos hv]

theorem guard_missing_subject (v : Int) (oiss : Option X509Name)
    (ext : Option (List GeneralName)) (nb na : String) (ser : Int)
    (hv : ¬ v < 0) :
    tls_get_peer_cert ⟨some ⟨some ⟨v, none, oiss, ext, nb, na, ser⟩⟩⟩ =
      ⟨-1, none, some .MissingIdentity, 0, 0⟩ := by
  rcases oiss with _ | issuer <;>
  · show (if v < 0 then (⟨-1, none, some .InvalidVersion, 0, 0⟩ : CertRes)
          else ⟨-1, none, some .MissingIdentity, 0, 0⟩) = _
    rw [if_neg hv]

theorem guard_missing_issuer (v : Int) (subject : X509Name)
    (ext : Option (List GeneralName)) (nb na : String) (ser : Int)
    (hv : ¬ v < 0) :
    tls_get_peer_cert ⟨some ⟨some ⟨v, some subject, none, ext, nb, na, ser⟩⟩⟩ =
      ⟨-1, none, some .MissingIdentity, 0, 0⟩ := by
  show (if v < 0 then (⟨-1, none, some .InvalidVersion, 0, 0⟩ : CertRes)
        else ⟨-1, none, some .MissingIdentity, 0, 0⟩) = _
  rw [if_neg hv]

theorem guard_pass (v : Int) (subject issuer : X509Name)
    (ext : Option (List GeneralName)) (nb na : String) (ser : Int)
    (hv : ¬ v < 0) :
    tls_get_peer_cert ⟨some ⟨some ⟨v, some subject, some issuer, ext, nb, na, ser⟩⟩⟩ =
      tls_get_peer_cert_body ⟨v, some subject, some issuer, ext, nb, na, ser⟩
        subject issuer := by
  show (if v < 0 then (⟨-1, none, some .InvalidVersion, 0, 0⟩ : CertRes)
        else tls_get_peer_cert_body ⟨v, some subject, some issuer, ext, nb, na, ser⟩
          subject issuer) = _
  rw [if_neg hv]

/-- C3: whenever any decode step of certificate extraction fails, the call
returns an error, the output pointer stays NULL, and every allocation made
during the call has been released (gross allocations equal gross frees);
and a session with no peer certificate yields NoPeerCertificate with
nothing allocated at all. -/
theorem c3_failure_no_partial_object (ctx : TlsState) :
    ((tls_get_peer_cert ctx).ret ≠ 0 →
      (tls_get_peer_cert ctx).cert_out = none ∧
      (tls_get_peer_cert ctx).alloc = (tls_get_peer_cert ctx).freed) ∧
    (∀ conn : SSLConn, ctx.ssl_conn = some conn → conn.peer_cert = none →
      tls_get_peer_cert ctx = ⟨-1, none, some .NoPeerCertificate, 0, 0⟩) := by
  obtain ⟨oconn⟩ := ctx
  rcases oconn with _ | conn
  · exact ⟨fun _ => ⟨rfl, rfl⟩, fun c hc => by cases hc⟩
  · obtain ⟨opeer⟩ := conn
    rcases opeer with _ | peer
    · exact ⟨fun _ => ⟨rfl, rfl⟩, fun c _ _ => rfl⟩
    · constructor
      · obtain ⟨v, osubj, oiss, ext, nb, na, ser⟩ := peer
        by_cases hv : v < 0
        · rw [guard_version v osubj oiss ext nb na ser hv]
          exact fun _ => ⟨rfl, rfl⟩
        · rcases osubj with _ | subject
          · rw [guard_missing_subject v oiss ext nb na ser hv]
            exact fun _ => ⟨rfl, rfl⟩
          · rcases oiss with _ | issuer
            · rw [guard_missing_issuer v subject ext nb na ser hv]
              exact fun _ => ⟨rfl, rfl⟩
            · rw [guard_pass v subject issuer ext nb na ser hv]
              exact body_spec ⟨v, some subject, some issuer, ext, nb, na, ser⟩
                subject issuer
      · intro c hc hp
        have hcc : c = ⟨some peer⟩ := (Option.some_inj.mp hc).symm
        subst hcc
        cases hp

/-- Witness for C3 at a concrete input: a connected session whose peer sent
no certificate fails with NoPeerCertificate, returns no object and neither
allocates nor frees anything. -/
theorem c3_failure_no_partial_object_witness :
    tls_get_peer_cert ⟨some ⟨none⟩⟩ =
      ⟨-1, none, some .NoPeerCertificate, 0, 0⟩ ∧
    (tls_get_peer_cert ⟨some ⟨none⟩⟩).cert_out = none ∧
    (tls_get_peer_cert ⟨some ⟨none⟩⟩).alloc =
      (tls_get_peer_cert ⟨some ⟨none⟩⟩).freed := by
  have h := c3_failure_no_partial_object ⟨some ⟨none⟩⟩
  have h2 := h.1 (by decide)
  exact ⟨h.2 ⟨none⟩ rfl rfl, h2.1, h2.2⟩

/-- C7: a distinguished-name attribute value (any of the seven recognised
ones, in the subject or the issuer) containing an embedded NUL byte makes
the whole extraction fail with CorruptValue and no CertificateInfo is
returned; an absent attribute is no error and leaves the field NULL. -/
theorem c7_nul_attribute_corrupt (ctx : TlsState) (conn : SSLConn) (peer : X509)
    (subject issuer : X509Name)
    (hconn : ctx.ssl_conn = some conn) (hpeer : conn.peer_cert = some peer)
    (hv : ¬ peer.version < 0)
    (hs : peer.subject_name = some subject)
    (hi : peer.issuer_name = some issuer)
    (hnul : (∃ v ∈ x509NameAttrs subject, ∃ bs, v = some bs ∧ 0 ∈ bs) ∨
            (∃ v ∈ x509NameAttrs issuer, ∃ bs, v = some bs ∧ 0 ∈ bs)) :
    ((tls_get_peer_cert ctx).ret ≠ 0 ∧
     (tls_get_peer_cert ctx).err = some .CorruptValue ∧
     (tls_get_peer_cert ctx).cert_out = none) ∧
    tls_cert_get_name_string none = ⟨0, none, none, 0, 0⟩ := by
  obtain ⟨oconn⟩ := ctx
  cases hconn
  obtain ⟨opeer⟩ := conn
  cases hpeer
  obtain ⟨v, osubj, oiss, ext, nb, na, ser⟩ := peer
  cases hs
  cases hi
  rw [guard_pass v subject issuer ext nb na ser hv, body_red]
  refine ⟨?_, rfl⟩
  by_cases h1 : (tls_get_entity subject).ret ≠ 0
  · rw [if_pos h1]
    exact ⟨h1, entity_fail subject h1, rfl⟩
  · have h2 : (tls_get_entity issuer).ret ≠ 0 := by
      rcases hnul with hnul | hnul
      · exact absurd (entity_nul_fails subject hnul) h1
      · exact entity_nul_fails issuer hnul
    rw [if_neg h1, if_pos h2]
    exact ⟨h2, entity_fail issuer h2, rfl⟩

/-- Witness for C7 at a concrete input: a subject whose common name contains
an embedded NUL byte makes extraction fail with CorruptValue and no
result object; an absent attribute decodes to no error and a NULL
field. -/
theorem c7_nul_attribute_corrupt_witness :
    ((tls_get_peer_cert ⟨some ⟨some ⟨0,
        some ⟨some [65, 0, 66], none, none, none, none, none, none⟩,
        some ⟨none, none, none, none, none, none, none⟩,
        none, "x", "y", 1⟩⟩⟩).ret ≠ 0 ∧
     (tls_get_peer_cert ⟨some ⟨some ⟨0,
        some ⟨some [65, 0, 66], none, none, none, none, none, none⟩,
        some ⟨none, none, none, none, none, none, none⟩,
        none, "x", "y", 1⟩⟩⟩).err = some .CorruptValue ∧
     (tls_get_peer_cert ⟨some ⟨some ⟨0,
        some ⟨some [65, 0, 66], none, none, none, none, none, none⟩,
        some ⟨none, none, none, none, none, none, none⟩,
        none, "x", "y", 1⟩⟩⟩).cert_out = none) ∧
    tls_cert_get_name_string none = ⟨0, none, none, 0, 0⟩ :=
  c7_nul_attribute_corrupt
    ⟨some ⟨some ⟨0, some ⟨some [65, 0, 66], none, none, none, none, none, none⟩,
      some ⟨none, none, none, none, none, none, none⟩, none, "x", "y", 1⟩⟩⟩
    ⟨some ⟨0, some ⟨some [65, 0, 66], none, none, none, none, none, none⟩,
      some ⟨none, none, none, none, none, none, none⟩, none, "x", "y", 1⟩⟩
    ⟨0, some ⟨some [65, 0, 66], none, none, none, none, none, none⟩,
      some ⟨none, none, none, none, none, none, none⟩, none, "x", "y", 1⟩
    ⟨some [65, 0, 66], none, none, none, none, none, none⟩
    ⟨none, none, none, none, none, none, none⟩
    rfl rfl (by norm_num) rfl rfl
    (Or.inl ⟨some [65, 0, 66], by simp [x509NameAttrs], [65, 0, 66], rfl, by simp⟩)

/-! ## Claim C9 -/

/-- C9: the fingerprint algorithm name is matched case-insensitively against
"sha1" and "sha256": for a session with a peer certificate and a buffer of
at least 32 bytes, "SHA256" (mixed case) succeeds and yields a 32-byte
digest, "md5" fails with UnsupportedAlgorithm, and so does every algorithm
name that matches neither "sha1" nor "sha256" case-insensitively. -/
theorem c9_fingerprint_algorithms (ctx : TlsState) (conn : SSLConn) (peer : X509)
    (buflen : Nat)
    (hconn : ctx.ssl_conn = some conn) (hpeer : conn.peer_cert = some peer)
    (hbuf : 32 ≤ buflen) :
    ((tls_get_peer_cert_fingerprint ctx "SHA256" buflen).ret = 0 ∧
     (tls_get_peer_cert_fingerprint ctx "SHA256" buflen).outlen = 32 ∧
     (tls_get_peer_cert_fingerprint ctx "SHA256" buflen).fp.length = 32) ∧
    ((tls_get_peer_cert_fingerprint ctx "md5" buflen).ret = -1 ∧
     (tls_get_peer_cert_fingerprint ctx "md5" buflen).err =
       some .UnsupportedAlgorithm) ∧
    (∀ algo : String, strcaseEq algo "sha1" = false →
      strcaseEq algo "sha256" = false →
      (tls_get_peer_cert_fingerprint ctx algo buflen).ret = -1 ∧
      (tls_get_peer_cert_fingerprint ctx algo buflen).err =
        some .UnsupportedAlgorithm) := by
  obtain ⟨oconn⟩ := ctx
  cases hconn
  obtain ⟨opeer⟩ := conn
  cases hpeer
  have hnot : ¬ 32 > buflen := by omega
  refine ⟨?_, ⟨rfl, rfl⟩, ?_⟩
  · have e1 : tls_get_peer_cert_fingerprint ⟨some ⟨some peer⟩⟩ "SHA256" buflen =
        ⟨0, (List.replicate 32 0).take (if 32 > buflen then buflen else 32),
         (if 32 > buflen then buflen else 32), none⟩ := rfl
    rw [e1, if_neg hnot]
    exact ⟨rfl, rfl, by simp⟩
  · intro algo h1 h2
    have e3 : (tls_get_peer_cert_fingerprint ⟨some ⟨some peer⟩⟩ algo buflen) =
        (if strcaseEq algo "sha1" = true ∨ strcaseEq algo "sha256" = true then
          (⟨0,
            (X509_digest (if strcaseEq algo "sha1" then EvpMd.sha1
                          else EvpMd.sha256)).take
              (if (X509_digest (if strcaseEq algo "sha1" then EvpMd.sha1
                                else EvpMd.sha256)).length > buflen
               then buflen
               else (X509_digest (if strcaseEq algo "sha1" then EvpMd.sha1
                                  else EvpMd.sha256)).length),
            (if (X509_digest (if strcaseEq algo "sha1" then EvpMd.sha1
                              else EvpMd.sha256)).length > buflen
             then buflen
             else (X509_digest (if strcaseEq algo "sha1" then EvpMd.sha1
                                else EvpMd.sha256)).length),
            none⟩ : FpRes)
         else ⟨-1, [], 0, some .UnsupportedAlgorithm⟩) := rfl
    rw [e3, if_neg (by simp [h1, h2])]
    exact ⟨rfl, rfl⟩

/-- Witness for C9 at a concrete input: with a 64-byte buffer, "SHA256"
yields return 0 and a 32-byte digest and "md5" is rejected. -/
theorem c9_fingerprint_algorithms_witness :
    ((tls_get_peer_cert_fingerprint ⟨some ⟨some ⟨0, none, none, none, "x", "y", 1⟩⟩⟩
        "SHA256" 64).ret = 0 ∧
     (tls_get_peer_cert_fingerprint ⟨some ⟨some ⟨0, none, none, none, "x", "y", 1⟩⟩⟩
        "SHA256" 64).outlen = 32) ∧
    (tls_get_peer_cert_fingerprint ⟨some ⟨some ⟨0, none, none, none, "x", "y", 1⟩⟩⟩
        "md5" 64).err = some .UnsupportedAlgorithm := by
  have h := c9_fingerprint_algorithms
    ⟨some ⟨some ⟨0, none, none, none, "x", "y", 1⟩⟩⟩
    ⟨some ⟨0, none, none, none, "x", "y", 1⟩⟩
    ⟨0, none, none, none, "x", "y", 1⟩ 64 rfl rfl (by norm_num)
  exact ⟨⟨h.1.1, h.1.2.1⟩, h.2.1.2⟩
end TlsCert
